import Mathlib

/-!
# bouncer: the connection registry and the per-connection SMTP state machine

A shallow embedding of `common.h`, `common.c` and `bouncer_epoll.c`.

* Bytes (`char`) are natural numbers `0..255`; a C string constant is the list
  of its bytes without the terminating NUL.
* `size_t`, `time_t` and array indices are natural numbers; descriptors are
  integers.
* The global arrays `sockets[]` and `data[]` are functions from the index to the
  element, `connections` is the live count; `entry_t.data` (a pointer into
  `data[]`) is the index it points to.
* The operating system is a `world_t`: the outcomes of the successive
  `safe_read`, `safe_write` and `time` calls are consumed from lists, and every
  system call made is appended to a log.
-/

namespace Bouncer

/-! ## common.h -/

def BOUNCER_MAX_EVENTS : Nat := 1024

def BOUNCER_CAN_READ : Nat := 1

def BOUNCER_CAN_WRITE : Nat := 2

/-- Protocol states: `enum state_t { S0, S1, S2, S3, S4, S5, FIN, ERR }`. -/
inductive state_t where
  | S0 | S1 | S2 | S3 | S4 | S5 | FIN | ERR
  deriving DecidableEq, Repr

/-- Per-connection protocol state, `struct data_t`. `write_buf` is `none` for a
NULL pointer and otherwise the string constant it points to; `read_buf` is the
whole `char[516]` array, of which the first `nread` bytes are valid. -/
structure data_t where
  nread : Nat
  nwritten : Nat
  towrite : Nat
  write_buf : Option (List Nat)
  read_buf : List Nat
  state : state_t
  deriving DecidableEq, Repr

/-- Registry entry, `struct entry_t`. `data` is the index in `data[]` that the
pointer refers to. -/
structure entry_t where
  data : Nat
  timeout : Nat
  hard_timeout : Nat
  sock : Int
  deriving DecidableEq, Repr

/-- The globals `sockets`, `data` and `connections`. -/
structure registry_t where
  sockets : Nat → entry_t
  data : Nat → data_t
  connections : Nat

/-! ## The operating system -/

/-- Outcome of `safe_read`: `ok d` is a return value `d.length` with the bytes
`d` stored (`ok []` is the zero-length read), `eagain` is `-1` with `errno`
`EAGAIN`/`EWOULDBLOCK`, `fail` is `-1` with any other `errno`. -/
inductive read_result where
  | ok (d : List Nat)
  | eagain
  | fail
  deriving DecidableEq, Repr

/-- Outcome of `safe_write`: `ok n` is the return value `n`, `eagain` is `-1`
with `errno` `EAGAIN`/`EWOULDBLOCK`, `fail` is `-1` with any other `errno`. -/
inductive write_result where
  | ok (n : Nat)
  | eagain
  | fail
  deriving DecidableEq, Repr

/-- System calls recorded in the log. A `write` records the string the pointer
refers to, the offset into it, and the size requested. -/
inductive os_event where
  | read (sock : Int) (off size : Nat) (res : read_result)
  | write (sock : Int) (buf : List Nat) (off size : Nat) (res : write_result)
  | epoll_del (sock : Int)
  | shutdown (sock : Int)
  | close (sock : Int)
  deriving DecidableEq, Repr

structure world_t where
  reads : List read_result
  writes : List write_result
  clock : List Nat
  log : List os_event
  deriving DecidableEq, Repr

/-- `time(NULL)`: the next value of the clock. -/
def time (w : world_t) : Nat × world_t :=
  (w.clock.headD 0, { w with clock := w.clock.tail })

/-- `safe_read(fd, buf + off, size)`: the next read outcome (would-block once
the list is used up). -/
def safe_read (fd : Int) (off size : Nat) (w : world_t) : read_result × world_t :=
  let res := w.reads.headD read_result.eagain
  (res, { w with reads := w.reads.tail, log := w.log ++ [os_event.read fd off size res] })

/-- `safe_write(fd, buf + off, size)`: the next write outcome (would-block once
the list is used up). -/
def safe_write (fd : Int) (buf : List Nat) (off size : Nat) (w : world_t) :
    write_result × world_t :=
  let res := w.writes.headD write_result.eagain
  (res, { w with writes := w.writes.tail, log := w.log ++ [os_event.write fd buf off size res] })

/-! ## libc on byte lists -/

/-- Bytes of a string literal. -/
def bytes (s : String) : List Nat := s.toList.map Char.toNat

/-- `isspace` in the "C" locale: space, TAB, LF, VT, FF, CR. -/
def isspace (c : Nat) : Bool := c == 32 || (9 ≤ c && c ≤ 13)

/-- `toupper` in the "C" locale. -/
def toupper (c : Nat) : Nat := if 97 ≤ c ∧ c ≤ 122 then c - 32 else c

/-- `memchr(s, c, n)`: offset of the first `c` among the first `n` bytes. -/
def memchr : List Nat → Nat → Nat → Option Nat
  | _, _, 0 => none
  | [], _, _ + 1 => none
  | b :: s, c, n + 1 => if b = c then some 0 else (memchr s c n).map (· + 1)

/-- The C string starting at `a`: the bytes before the first NUL. -/
def c_str (a : List Nat) : List Nat := a.takeWhile (fun b => b != 0)

/-- `!strcmp(a, lit)` for a literal without NUL bytes. -/
def strcmp_eq (a lit : List Nat) : Bool := c_str a == lit

/-- Store the bytes `d` at offset `off` of `buf`. -/
def buf_write (buf : List Nat) (off : Nat) (d : List Nat) : List Nat :=
  buf.take off ++ d ++ buf.drop (off + d.length)

/-- `memcpy(buf, buf + src, n)`, copying front to back. -/
def memcpy_front (buf : List Nat) (src n : Nat) : List Nat :=
  buf_write buf 0 ((buf.drop src).take n)

/-! ## common.c -/

def str_greeting : List Nat := bytes "554 5.3.2 HELLO FROM THE BOUNCER!\r\n"

def str_quit : List Nat := bytes "221 2.0.0 Bye.\r\n"

def str_noop : List Nat := bytes "250 2.0.0 OK.\r\n"

def str_bad_seq : List Nat := bytes "503 5.1.1 Bad sequence of commands.\r\n"

def err_syntax : List Nat := bytes "500 5.5.2 Syntax error.\r\n"

def err_unavail : List Nat :=
  bytes "421 4.4.2 localhost.localdomain Closing transmission channel.\r\n"

/-- The loop of `find_socket`: the first index `i < connections` with
`sockets[i].sock == sock`; `none` is the return value `-1`. -/
def find_socket (r : registry_t) (sock : Int) : Option Nat :=
  (List.range r.connections).find? (fun i => (r.sockets i).sock == sock)

/-- Function `do_write` of common.c. Returns the `int` result together with
`*x`, `*e` and the world. `write` returns at most the size requested, so
`towrite -= n` does not wrap. -/
def do_write (x : data_t) (e : entry_t) (buf : List Nat) (len : Nat) (state : state_t)
    (w : world_t) : Nat × data_t × entry_t × world_t :=
  let (now, w) := time w
  let x := if x.write_buf.isNone then { x with write_buf := some buf, towrite := len } else x
  let (n, w) := safe_write e.sock (x.write_buf.getD []) x.nwritten x.towrite w
  match n with
  | write_result.ok k =>
    if k = x.towrite then
      (0, { x with towrite := 0, write_buf := none, state := state },
        { e with timeout := now + 300 }, w)
    else if k > 0 then
      (0, { x with nwritten := x.nwritten + k, towrite := x.towrite - k },
        { e with timeout := now + 300 }, w)
    else
      (0, { x with state := state_t.ERR }, e, w)
  | write_result.fail => (0, { x with state := state_t.ERR }, e, w)
  | write_result.eagain => (1, x, e, w)

/-- The `for` loop over the command word: `k` iterations remain, `p` is the
current offset. -/
def token_loop : Nat → Nat → List Nat → List Nat
  | 0, _, buf => buf
  | k + 1, p, buf =>
    if isspace (buf.getD p 0) then buf.set p 0
    else token_loop k (p + 1) (buf.set p (toupper (buf.getD p 0)))

/-- The part of `case S1` after the read: find a line, classify its command
word and shift the rest of the buffer to the front. -/
def parse_line (x : data_t) : data_t :=
  match memchr x.read_buf 10 x.nread with
  | some pos =>
    let buf := x.read_buf.set pos 0
    let buf := token_loop pos 0 buf
    let st :=
      if strcmp_eq buf (bytes "QUIT") then state_t.S2
      else if strcmp_eq buf (bytes "NOOP") then state_t.S3
      else if buf.getD 0 0 = 0 then state_t.S4
      else state_t.S5
    { x with
      state := st
      read_buf := memcpy_front buf (pos + 1) (x.nread - (pos + 1))
      nread := x.nread - (pos + 1) }
  | none =>
    if x.nread = 512 then { x with state := state_t.S4, nread := 0 } else x

/-- What one pass through the body of `while (!done)` yields: the new value of
`done`, or a `return`. -/
inductive pass_t where
  | next (done : Bool)
  | ret (v : Nat)
  deriving DecidableEq, Repr

/-- The arm `case S1` of `process_event`. -/
def case_S1 (sock : Int) (flags now : Nat) (x : data_t) (e : entry_t) (w : world_t) :
    pass_t × data_t × entry_t × world_t :=
  if flags &&& BOUNCER_CAN_READ ≠ 0 then
    let (n, w) := safe_read sock x.nread (512 - x.nread) w
    match n with
    | read_result.ok d =>
      if d.length > 0 then
        (pass_t.next false,
          parse_line { x with read_buf := buf_write x.read_buf x.nread d,
                              nread := x.nread + d.length },
          { e with timeout := now + 300 }, w)
      else
        (pass_t.next false, parse_line { x with state := state_t.ERR }, e, w)
    | read_result.fail => (pass_t.next false, parse_line { x with state := state_t.ERR }, e, w)
    | read_result.eagain => (pass_t.next (decide (x.nread = 0)), parse_line x, e, w)
  else
    (pass_t.next true, x, e, w)

/-- The arms `case S0`, `S2`..`S5`:
`done = !(flags & BOUNCER_CAN_WRITE) || do_write(x, &e, buf, strlen(buf), state)`. -/
def case_send (flags : Nat) (buf : List Nat) (state : state_t) (x : data_t) (e : entry_t)
    (w : world_t) : pass_t × data_t × entry_t × world_t :=
  if flags &&& BOUNCER_CAN_WRITE = 0 then (pass_t.next true, x, e, w)
  else
    let (r, x, e, w) := do_write x e buf buf.length state w
    (pass_t.next (decide (r ≠ 0)), x, e, w)

/-- One pass through the body of the `while (!done)` loop of `process_event`. -/
def loop_body (sock : Int) (flags : Nat) (x : data_t) (e : entry_t) (w : world_t) :
    pass_t × data_t × entry_t × world_t :=
  let (now, w) := time w
  match x.state with
  | state_t.S0 => case_send flags str_greeting state_t.S1 x e w
  | state_t.S1 => case_S1 sock flags now x e w
  | state_t.S2 => case_send flags str_quit state_t.FIN x e w
  | state_t.S3 => case_send flags str_noop state_t.S1 x e w
  | state_t.S4 => case_send flags ( err_syntax) state_t.S1 x e w
  | state_t.S5 => case_send flags str_bad_seq state_t.S1 x e w
  | state_t.FIN => (pass_t.ret 1, x, e, w)
  | state_t.ERR =>
    if flags &&& BOUNCER_CAN_WRITE ≠ 0 then
      let (_, x, e, w) := do_write x e err_unavail err_unavail.length state_t.ERR w
      (pass_t.ret 1, x, e, w)
    else (pass_t.ret 1, x, e, w)

/-- The `while (!done)` loop of `process_event`, at most `fuel` passes: the
value returned with the final `*x`, the local `e` and the world, or `none` when
the loop is still running after `fuel` passes. -/
def process_event_loop (sock : Int) (flags : Nat) :
    Nat → data_t → entry_t → world_t → Option (Nat × data_t × entry_t × world_t)
  | 0, _, _, _ => none
  | fuel + 1, x, e, w =>
    match loop_body sock flags x e w with
    | (pass_t.ret v, x, e, w) => some (v, x, e, w)
    | (pass_t.next true, x, e, w) => some (0, x, e, w)
    | (pass_t.next false, x, e, w) => process_event_loop sock flags fuel x e w

/-- Function `process_event` of common.c. `e` is a copy of `sockets[idx]` local
to the call; `x` points into `data[]`, so only `*x` reaches the registry. -/
def process_event (fuel : Nat) (r : registry_t) (w : world_t) (sock : Int) (flags : Nat) :
    Option (Nat × registry_t × world_t) :=
  match find_socket r sock with
  | none => some (1, r, w)
  | some idx =>
    let e := r.sockets idx
    match process_event_loop sock flags fuel (r.data e.data) e w with
    | none => none
    | some (v, x, _, w) => some (v, { r with data := Function.update r.data e.data x }, w)

/-! ## bouncer_epoll.c -/

def err_timeout : List Nat := bytes "421 4.4.2 localhost.localdomain Timeout exceeded.\r\n"

/-- Function `accept_socket` of bouncer_epoll.c. `conn` is the result of
`accept`, `nonblocking_ok` says whether `make_nonblocking(conn) >= 0`, and
`epoll_ok` whether `epoll_ctl(eh, EPOLL_CTL_ADD, conn, &ev) >= 0`. Returns the
descriptor or `-1`. -/
def accept_socket (r : registry_t) (w : world_t) (conn : Int) (nonblocking_ok epoll_ok : Bool) :
    Int × registry_t × world_t :=
  if conn ≥ 0 then
    if r.connections ≥ BOUNCER_MAX_EVENTS - 1 then
      (-1, r, { w with log := w.log ++ [os_event.shutdown conn, os_event.close conn] })
    else if nonblocking_ok && epoll_ok then
      let (now, w) := time w
      let c := r.connections
      let entry : entry_t :=
        { sock := conn, data := c, timeout := now + 300, hard_timeout := now + 900 }
      let d : data_t :=
        { r.data c with state := state_t.S0, nread := 0, nwritten := 0, towrite := 0,
                        write_buf := none }
      (conn,
        { sockets := Function.update r.sockets c entry
          data := Function.update r.data c d
          connections := c + 1 }, w)
    else
      (-1, r, { w with log := w.log ++ [os_event.close conn] })
  else
    (-1, r, w)

/-- Function `close_socket` of bouncer_epoll.c; `msg` is `none` for NULL. -/
def close_socket (r : registry_t) (w : world_t) (sock : Int) (msg : Option (List Nat)) :
    registry_t × world_t :=
  let w := match msg with
    | some m => (safe_write sock m 0 m.length w).2
    | none => w
  let w := { w with log := w.log ++
    [os_event.epoll_del sock, os_event.shutdown sock, os_event.close sock] }
  match find_socket r sock with
  | some idx =>
    let last := r.connections - 1
    let r :=
      if idx ≠ last then
        { r with
          sockets := Function.update r.sockets idx { r.sockets last with data := idx }
          data := Function.update r.data idx (r.data last) }
      else r
    ({ r with connections := r.connections - 1 }, w)
  | none => (r, w)

/-- The timeout sweep of `event_loop`,
`for (i=connections-1; i>=0; --i)`, with `i + 1` entries left to visit. -/
def sweep_loop (now : Nat) : Nat → registry_t → world_t → registry_t × world_t
  | 0, r, w => (r, w)
  | i + 1, r, w =>
    if (r.sockets i).timeout ≤ now ∨ (r.sockets i).hard_timeout ≤ now then
      let (r, w) := close_socket r w (r.sockets i).sock (some err_timeout)
      sweep_loop now i r w
    else sweep_loop now i r w

/-- The body of `if (!terminate)` in `event_loop`. -/
def timeout_sweep (r : registry_t) (w : world_t) : registry_t × world_t :=
  let (now, w) := time w
  sweep_loop now r.connections r w

/-! ## Specification-level definitions -/

/-- Whitespace as the specification lists it: space, TAB, VT, FF, CR. -/
def spec_whitespace (c : Nat) : Bool := c == 32 || c == 9 || c == 11 || c == 12 || c == 13

/-- The token as the specification words it: the bytes of the line before its
first whitespace character, in upper case. -/
def spec_token (line : List Nat) : List Nat :=
  (line.takeWhile (fun b => !spec_whitespace b)).map toupper

/-- The command word the code compares: the bytes of the line before its first
whitespace character or NUL byte, in upper case. -/
def command_word (line : List Nat) : List Nat :=
  (line.takeWhile (fun b => !spec_whitespace b && b != 0)).map toupper

/-- The state a token selects: `QUIT`, `NOOP`, empty, anything else. -/
def classify (token : List Nat) : state_t :=
  if token = bytes "QUIT" then state_t.S2
  else if token = bytes "NOOP" then state_t.S3
  else if token = [] then state_t.S4
  else state_t.S5

/-- What the `for` loop of `case S1` leaves in place of the line: upper case
up to the first whitespace byte, which becomes NUL. -/
def token_bytes : List Nat → List Nat
  | [] => []
  | b :: l => if isspace b then 0 :: l else toupper b :: token_bytes l


/-! ## Concrete inputs -/

/-- A connection in S1 holding `buffered` in its read buffer, nothing pending
and nothing sent. -/
def conn_S1 (buffered : List Nat) : data_t :=
  { nread := buffered.length, nwritten := 0, towrite := 0, write_buf := none,
    read_buf := buffered ++ List.replicate (516 - buffered.length) 0, state := state_t.S1 }

/-- A registry entry for descriptor 5 with its state in `data[0]`. -/
def entry_5 : entry_t := { data := 0, timeout := 300, hard_timeout := 900, sock := 5 }

/-- A world in which every read and write would block. -/
def world_idle : world_t := { reads := [], writes := [], clock := [], log := [] }

/-- The globals at program start: zero-initialised arrays, `connections = 0`. -/
def registry_init : registry_t :=
  { sockets := fun _ => { data := 0, timeout := 0, hard_timeout := 0, sock := 0 }
    data := fun _ =>
      { nread := 0, nwritten := 0, towrite := 0, write_buf := none,
        read_buf := List.replicate 516 0, state := state_t.S0 }
    connections := 0 }

/-- The registry and world after `accept_socket` admitted descriptor 5 as the
first connection. -/
def admitted (w : world_t) : registry_t × world_t :=
  (accept_socket registry_init w 5 true true).2

/-- A registry whose only connection is descriptor 5 with protocol state `x`. -/
def registry_one (x : data_t) : registry_t :=
  { sockets := fun i => if i = 0 then entry_5 else registry_init.sockets i
    data := fun i => if i = 0 then x else registry_init.data i
    connections := 1 }

/-- The transport takes 10 bytes of the greeting, then the other 25, then 15
bytes; the client sends `NOOP`. -/
def world_short_write : world_t :=
  { reads := [read_result.ok (bytes "NOOP\r\n")],
    writes := [write_result.ok 10, write_result.ok 25, write_result.ok 15],
    clock := [], log := [] }

/-- The connection is accepted at time 100 and the greeting is written in full at
time 200. -/
def world_greeting_at_200 : world_t :=
  { reads := [], writes := [write_result.ok 35], clock := [100, 200, 200, 200], log := [] }

/-- Read outcomes delivering the chunks of `rest` in order, each after the given
number of would-block results. -/
def gapped_reads : List (Nat × List Nat) → List read_result
  | [] => []
  | (k, c) :: rest => List.replicate k read_result.eagain ++ read_result.ok c :: gapped_reads rest

/-- The bytes delivered by the chunks of `rest`. -/
def chunk_bytes : List (Nat × List Nat) → List Nat
  | [] => []
  | (_, c) :: rest => c ++ chunk_bytes rest

/-- The connection state after the pass of the loop in which one read delivers
the whole `line` with its LF. -/
def line_in_one_read (sock : Int) (flags : Nat) (x : data_t) (e : entry_t) (w : world_t)
    (line : List Nat) (later : List read_result) : data_t :=
  (loop_body sock flags x e { w with reads := read_result.ok (line ++ [10]) :: later }).2.1

/-- The connection `x` once the bytes `p` have been read into its empty buffer. -/
def buffered (x : data_t) (p : List Nat) : data_t :=
  { x with read_buf := buf_write x.read_buf 0 p, nread := p.length }

/-- The line `NOOP` CR LF arrives as `NO`, would-block, `OP` CR, would-block
twice, LF. -/
def world_chunked : world_t :=
  { reads := [read_result.ok (bytes "NO"), read_result.eagain, read_result.ok (bytes "OP\r"),
      read_result.eagain, read_result.eagain, read_result.ok (bytes "\n")],
    writes := [], clock := [], log := [] }

/-- The bytes of `log` that the transport accepted from writes to `sock`. -/
def written_bytes (sock : Int) : List os_event → List Nat
  | [] => []
  | os_event.write s buf off _ (write_result.ok n) :: l =>
    if s = sock then (buf.drop off).take n ++ written_bytes sock l else written_bytes sock l
  | _ :: l => written_bytes sock l

/-- The client sends `NOOP` and the transport takes the 15-byte reply at once. -/
def world_noop : world_t :=
  { reads := [read_result.ok (bytes "NOOP\r\n")], writes := [write_result.ok 15],
    clock := [], log := [] }

/-- The client sends `QUIT` and the transport takes the 16-byte reply at once. -/
def world_quit : world_t :=
  { reads := [read_result.ok (bytes "QUIT\r\n")], writes := [write_result.ok 16],
    clock := [], log := [] }

/-- Live handles are pairwise distinct. -/
def distinct_handles (r : registry_t) : Prop :=
  ∀ i, i < r.connections → ∀ j, j < r.connections →
    (r.sockets i).sock = (r.sockets j).sock → i = j

/-- The data pointer of every live entry `sockets[i]` is `&data[i]`. -/
def back_refs (r : registry_t) : Prop :=
  ∀ i, i < r.connections → (r.sockets i).data = i

/-- The test of the timeout sweep: `timeout <= now || hard_timeout <= now`. -/
def expired (now : Nat) (e : entry_t) : Bool :=
  decide (e.timeout ≤ now ∨ e.hard_timeout ≤ now)

/-- The descriptors closed in a log, in order. -/
def closed_socks : List os_event → List Int
  | [] => []
  | os_event.close s :: l => s :: closed_socks l
  | _ :: l => closed_socks l

instance (r : registry_t) : Decidable (distinct_handles r) := by
  unfold distinct_handles; infer_instance

instance (r : registry_t) : Decidable (back_refs r) := by
  unfold back_refs; infer_instance

/-- Three connections, descriptors 5, 6 and 7, admitted at times 100, 200 and
300. -/
def registry_three : registry_t :=
  let w : world_t := { reads := [], writes := [], clock := [100, 200, 300], log := [] }
  let a := accept_socket registry_init w 5 true true
  let b := accept_socket a.2.1 a.2.2 6 true true
  (accept_socket b.2.1 b.2.2 7 true true).2.1

/-- The clock reads 450 at the sweep. -/
def world_at_450 : world_t := { reads := [], writes := [], clock := [450], log := [] }

/-- What the registry holds for a handle: soft deadline, hard deadline and the
protocol state reached through the entry's data pointer. -/
def view (r : registry_t) (g : Int) : Option (Nat × Nat × data_t) :=
  (find_socket r g).map
    (fun j => ((r.sockets j).timeout, (r.sockets j).hard_timeout, r.data (r.sockets j).data))

/-- Registry states reachable from the initial one by `accept_socket` and
`close_socket`, whatever their arguments and the world. -/
inductive reachable : registry_t → Prop where
  | init : reachable registry_init
  | accept (r : registry_t) (w : world_t) (conn : Int) (nonblocking_ok epoll_ok : Bool) :
      reachable r → reachable (accept_socket r w conn nonblocking_ok epoll_ok).2.1
  | close (r : registry_t) (w : world_t) (sock : Int) (msg : Option (List Nat)) :
      reachable r → reachable (close_socket r w sock msg).1

/-- A registry at capacity: 1023 connections, descriptors 4 to 1026. -/
def registry_full : registry_t :=
  { sockets := fun i => { data := i, timeout := 300, hard_timeout := 900, sock := i + 4 }
    data := registry_init.data
    connections := 1023 }

/-- Two `NOOP` lines arrive in one read, each reply is accepted in full, and the
next read reports end-of-stream. -/
def world_two_lines_then_eof : world_t :=
  { reads := [read_result.ok (bytes "NOOP\r\nNOOP\r\n"), read_result.ok []],
    writes := [write_result.ok 15, write_result.ok 15], clock := [], log := [] }

/-- A world whose next read reports end-of-stream. -/
def world_eof : world_t := { reads := [read_result.ok []], writes := [], clock := [], log := [] }

/-- A world whose next read fails with an error other than would-block. -/
def world_read_error : world_t :=
  { reads := [read_result.fail], writes := [], clock := [], log := [] }

/-- The transport takes the greeting as 10 and 25 bytes; the client then sends
512 bytes without LF, and 25 bytes of the reply are taken. -/
def world_long_line : world_t :=
  { reads := [read_result.ok (List.replicate 512 65)],
    writes := [write_result.ok 10, write_result.ok 25, write_result.ok 25],
    clock := [], log := [] }

/-- The first write of the greeting fails; the next write is accepted in full. -/
def world_greeting_fails : world_t :=
  { reads := [], writes := [write_result.fail, write_result.ok 35], clock := [], log := [] }

/-- The transport takes the greeting as 10 and 25 bytes; the first read then
fails, and the next write is accepted in full. -/
def world_read_fails_after_greeting : world_t :=
  { reads := [read_result.fail],
    writes := [write_result.ok 10, write_result.ok 25, write_result.ok 63],
    clock := [], log := [] }

/-- The result of `process_event(5, CAN_READ|CAN_WRITE)` on a connection in S1
to which the client sends `NOOP`. -/
def noop_outcome : Nat × registry_t × world_t :=
  (process_event 3 (registry_one (conn_S1 [])) world_noop 5 3).getD
    (1, registry_one (conn_S1 []), world_noop)

/-- The result of `process_event(5, CAN_READ|CAN_WRITE)` on the first of three
fresh connections when the transport takes 15 bytes of the greeting. -/
def three_outcome : Nat × registry_t × world_t :=
  (process_event 5 registry_three world_noop 5 3).getD (1, registry_three, world_noop)

/-- The client sends `NOOP`, then `QUIT`; the greeting and both replies are
accepted in full. -/
def world_session : world_t :=
  { reads := [read_result.ok (bytes "NOOP\r\n"), read_result.eagain,
      read_result.ok (bytes "QUIT\r\n")],
    writes := [write_result.ok 35, write_result.ok 15, write_result.ok 16],
    clock := [], log := [] }

/-- The reply that the arm of a state passes to `do_write`. -/
def reply_of : state_t → List Nat
  | state_t.S0 => str_greeting
  | state_t.S2 => str_quit
  | state_t.S3 => str_noop
  | state_t.S4 => err_syntax
  | state_t.S5 => str_bad_seq
  | _ => err_unavail

/-- The state that the arm of a state passes to `do_write`, entered once the
reply is out. -/
def next_of : state_t → state_t
  | state_t.S2 => state_t.FIN
  | state_t.FIN => state_t.FIN
  | state_t.ERR => state_t.ERR
  | _ => state_t.S1

/-- Two `NOOP` lines arrive in one read and each reply is accepted in full. -/
def world_two_lines : world_t :=
  { reads := [read_result.ok (bytes "NOOP\r\nNOOP\r\n")],
    writes := [write_result.ok 15, write_result.ok 15], clock := [], log := [] }

/-- Write outcomes a transport can give while `m` bytes of a message remain:
would-block, or a count between 1 and the bytes that remain. -/
def writes_fit : Nat → List write_result → Bool
  | _, [] => true
  | m, write_result.eagain :: ws => writes_fit m ws
  | m, write_result.ok k :: ws => decide (0 < k) && decide (k ≤ m) && writes_fit (m - k) ws
  | _, write_result.fail :: _ => false

/-- Successive calls `process_event(sock, flags)`, one for each entry of the list
of flags, as `event_loop` makes them: a connection for which the call returns
non-zero is closed with `close_socket(sock, eh, NULL)`. -/
def invocations (fuel : Nat) (sock : Int) :
    List Nat → registry_t → world_t → Option (registry_t × world_t)
  | [], r, w => some (r, w)
  | flags :: rest, r, w =>
    match process_event fuel r w sock flags with
    | none => none
    | some (v, r, w) =>
      if v ≠ 0 then
        let (r, w) := close_socket r w sock none
        invocations fuel sock rest r w
      else invocations fuel sock rest r w

/-- The greeting of connection `x` is under way with `a` bytes accepted: in S0
with the greeting pending from offset `a`, or in S1 with nothing pending once all
35 bytes are out. -/
def greeting_at (x : data_t) (a : Nat) : Prop :=
  x.nread = 0 ∧
  ((a < 35 ∧ x.state = state_t.S0 ∧ x.write_buf = some str_greeting ∧ x.nwritten = a ∧
      x.towrite = 35 - a) ∨
   (a = 35 ∧ x.state = state_t.S1 ∧ x.write_buf = none))

/-- The connection is fresh, or its greeting is under way with `a` bytes
accepted. -/
def greeting_phase (x : data_t) (a : Nat) : Prop :=
  (a = 0 ∧ x.nread = 0 ∧ x.state = state_t.S0 ∧ x.write_buf = none ∧ x.nwritten = 0) ∨
  greeting_at x a

/-- The transport takes the greeting as 10 bytes, would-block, 20 bytes and 5
bytes; the client is silent. -/
def world_greeting_pieces : world_t :=
  { reads := [],
    writes := [write_result.ok 10, write_result.eagain, write_result.ok 20, write_result.ok 5],
    clock := [], log := [] }

/-- The contract of `read`: the read issued for connection `x` delivers at most
the `512 - nread` bytes requested. -/
def read_fits (x : data_t) (w : world_t) : Prop :=
  ∀ d, w.reads.headD read_result.eagain = read_result.ok d → d.length ≤ 512 - x.nread

/-- The connection states reachable from admission by passes of the
`process_event` loop, over any flags and any world that keeps the contract of
`read`. -/
inductive reachable_conn : data_t → Prop where
  | fresh (x : data_t) : x.state = state_t.S0 → x.nread = 0 → x.nwritten = 0 →
      x.towrite = 0 → x.write_buf = none → x.read_buf.length = 516 → reachable_conn x
  | pass (sock : Int) (flags : Nat) (x : data_t) (e : entry_t) (w : world_t) :
      reachable_conn x → read_fits x w → reachable_conn (loop_body sock flags x e w).2.1

/-- The connection after a read stored `d` at `read_buf + nread`. -/
def after_read (x : data_t) (d : List Nat) : data_t :=
  { x with read_buf := buf_write x.read_buf x.nread d, nread := x.nread + d.length }

/-! ## Theorems -/

theorem memchr_append (c : Nat) (l r : List Nat) (h : c ∉ l) :
    ∀ n, l.length < n → memchr (l ++ c :: r) c n = some l.length := by
  induction l with
  | nil => intro n hn; cases n with
    | zero => simp at hn
    | succ n => simp [memchr]
  | cons b l ih =>
    intro n hn
    cases n with
    | zero => simp at hn
    | succ n =>
      have hb : b ≠ c := fun hbc => h (by simp [hbc])
      have hl : c ∉ l := fun hc => h (by simp [hc])
      simp only [List.length_cons, Nat.add_lt_add_iff_right] at hn
      simp [memchr, hb, ih hl n hn]

theorem memchr_none (c : Nat) (l : List Nat) (h : c ∉ l) : ∀ n, memchr l c n = none := by
  induction l with
  | nil => intro n; cases n <;> simp [memchr]
  | cons b l ih =>
    intro n
    cases n with
    | zero => simp [memchr]
    | succ n =>
      have hb : b ≠ c := fun hbc => h (by simp [hbc])
      have hl : c ∉ l := fun hc => h (by simp [hc])
      simp [memchr, hb, ih hl n]

theorem memchr_take (c : Nat) : ∀ (l : List Nat) (n : Nat), memchr l c n = memchr (l.take n) c n := by
  intro l
  induction l with
  | nil => intro n; cases n <;> simp [memchr]
  | cons b l ih =>
    intro n
    cases n with
    | zero => simp [memchr]
    | succ n => simp only [List.take_succ_cons, memchr]; rw [ih n]

theorem token_loop_eq (l : List Nat) : ∀ (pre tail : List Nat),
    token_loop l.length pre.length (pre ++ l ++ 0 :: tail) = pre ++ token_bytes l ++ 0 :: tail := by
  induction l with
  | nil => intro pre tail; simp [token_loop, token_bytes]
  | cons b l ih =>
    intro pre tail
    have hget : (pre ++ b :: l ++ 0 :: tail).getD pre.length 0 = b := by
      have hassoc : pre ++ b :: l ++ 0 :: tail = pre ++ (b :: (l ++ 0 :: tail)) := by simp
      rw [hassoc, List.getD_eq_getElem?_getD, List.getElem?_append_right (le_refl _)]
      simp
    have hset : ∀ v, (pre ++ b :: l ++ 0 :: tail).set pre.length v = pre ++ v :: l ++ 0 :: tail := by
      intro v
      simp [List.set_append_right]
    simp only [List.length_cons, token_loop, hget, hset, token_bytes]
    by_cases hb : isspace b = true
    · simp [hb]
    · simp only [hb, Bool.false_eq_true, if_false]
      have := ih (pre ++ [toupper b]) tail
      simp only [List.length_append, List.length_singleton, List.append_assoc,
        List.singleton_append] at this
      simpa using this

theorem toupper_eq_zero (b : Nat) : toupper b = 0 ↔ b = 0 := by
  unfold toupper
  split <;> omega

theorem isspace_of_no_lf (b : Nat) (h : b ≠ 10) : isspace b = spec_whitespace b := by
  rw [Bool.eq_iff_iff]
  simp only [isspace, spec_whitespace, Bool.or_eq_true, Bool.and_eq_true, beq_iff_eq,
    decide_eq_true_eq]
  omega

theorem c_str_token_bytes (l tail : List Nat) (h : 10 ∉ l) :
    c_str (token_bytes l ++ 0 :: tail) = command_word l := by
  induction l with
  | nil => simp [token_bytes, c_str, command_word]
  | cons b l ih =>
    have hb : b ≠ 10 := fun hbc => h (by simp [hbc])
    have hl : 10 ∉ l := fun hc => h (by simp [hc])
    have ih := ih hl
    rw [token_bytes]
    by_cases hs : isspace b = true
    · have hs2 := hs
      rw [isspace_of_no_lf b hb] at hs2
      simp [hs, c_str, command_word, hs2]
    · have hs2 := hs
      rw [isspace_of_no_lf b hb] at hs2
      by_cases hz : b = 0
      · subst hz
        simp [hs, c_str, command_word, toupper]
      · have hu : toupper b ≠ 0 := fun h0 => hz ((toupper_eq_zero b).1 h0)
        simp only [c_str, command_word] at ih ⊢
        simp [hs, hs2, hz, hu, ih]


theorem getD_zero_iff_c_str (a : List Nat) : a.getD 0 0 = 0 ↔ c_str a = [] := by
  cases a with
  | nil => simp [c_str]
  | cons b a => by_cases hb : b = 0 <;> simp [c_str, hb]

theorem parse_line_of_line (x : data_t) (line tail : List Nat)
    (hb : x.read_buf = line ++ 10 :: tail) (hn : line.length < x.nread) (h10 : 10 ∉ line) :
    parse_line x =
      { x with
        state := classify (command_word line)
        read_buf := memcpy_front (token_bytes line ++ 0 :: tail) (line.length + 1)
          (x.nread - (line.length + 1))
        nread := x.nread - (line.length + 1) } := by
  have hm : memchr x.read_buf 10 x.nread = some line.length := by
    rw [hb]; exact memchr_append 10 line tail h10 _ hn
  have hset : x.read_buf.set line.length 0 = line ++ 0 :: tail := by
    rw [hb]; simp [List.set_append_right]
  have hloop : token_loop line.length 0 (line ++ 0 :: tail) = token_bytes line ++ 0 :: tail := by
    have := token_loop_eq line [] tail
    simpa using this
  have hstr := c_str_token_bytes line tail h10
  have hz := getD_zero_iff_c_str (token_bytes line ++ 0 :: tail)
  unfold parse_line
  rw [hm]
  simp only [hset, hloop, strcmp_eq, hstr, beq_iff_eq, hz, classify]

/-- Appending what a read delivers keeps the first line of the buffer. -/
theorem buf_write_keeps_line (buf line rest d : List Nat) (n : Nat)
    (h : buf.take n = line ++ 10 :: rest) :
    ∃ tail, buf_write buf n d = line ++ 10 :: tail := by
  refine ⟨rest ++ d ++ buf.drop (n + d.length), ?_⟩
  simp [buf_write, h]

theorem line_of_take (buf line rest : List Nat) (n : Nat)
    (h : buf.take n = line ++ 10 :: rest) :
    (∃ tail, buf = line ++ 10 :: tail) ∧ line.length < n := by
  constructor
  · refine ⟨rest ++ buf.drop n, ?_⟩
    have := List.take_append_drop n buf
    rw [h] at this
    simpa using this.symm
  · have := congrArg List.length h
    simp only [List.length_take, List.length_append, List.length_cons] at this
    omega

/-- C1 (as amended): for a connection in S1 whose read buffer starts with a line
(bytes other than LF, then LF), one pass of the `process_event` loop with read
permitted, whatever the read returns, moves the connection to the state selected
by the bytes of the line before its first whitespace or NUL byte, in upper case:
S2 for QUIT, S3 for NOOP, S4 for the empty word, S5 otherwise. -/
theorem C1_line_classification (sock : Int) (flags : Nat) (x : data_t) (e : entry_t)
    (w : world_t) (line rest : List Nat)
    (hstate : x.state = state_t.S1)
    (hflags : flags &&& BOUNCER_CAN_READ ≠ 0)
    (hline : 10 ∉ line)
    (hbuf : x.read_buf.take x.nread = line ++ 10 :: rest) :
    (loop_body sock flags x e w).2.1.state = classify (command_word line) := by
  obtain ⟨⟨tail, hb⟩, hn⟩ := line_of_take _ _ _ _ hbuf
  obtain ⟨rest, hrest⟩ := w
  simp only [loop_body, hstate, case_S1, time, safe_read, hflags, ne_eq, not_false_eq_true,
    if_true]
  cases hr : List.headD rest read_result.eagain with
  | ok d =>
    by_cases hd : d.length > 0
    · simp only [hd, if_true]
      obtain ⟨tail2, hb2⟩ := buf_write_keeps_line x.read_buf line _ d x.nread hbuf
      rw [parse_line_of_line _ line tail2 hb2 (by simp; omega) hline]
    · simp only [hd, if_false]
      rw [parse_line_of_line { x with state := state_t.ERR } line tail hb hn hline]
  | eagain =>
    simp only []
    rw [parse_line_of_line _ line tail hb hn hline]
  | fail =>
    simp only []
    rw [parse_line_of_line { x with state := state_t.ERR } line tail hb hn hline]

/-- C1 at the line `quit` CR LF held by a connection in S1: the state entered is
S2, as for `QUIT` CR LF. -/
theorem C1_line_classification_witness :
    (loop_body 5 1 (conn_S1 (bytes "quit\r\n")) entry_5 world_idle).2.1.state = state_t.S2 ∧
    classify (command_word (bytes "QUIT\r")) = state_t.S2 ∧
    classify (command_word (bytes "\r")) = state_t.S4 ∧
    classify (command_word (bytes "FOO\r")) = state_t.S5 :=
  ⟨(C1_line_classification 5 1 (conn_S1 (bytes "quit\r\n")) entry_5 world_idle (bytes "quit\r") []
      (by decide) (by decide) (by decide) (by decide)).trans (by decide),
    by decide, by decide, by decide⟩

/-- C1 as stated fails at the line `QUIT` NUL LF: the token of the claim is the
five bytes `QUIT` NUL, which selects S5, while the code enters S2. -/
theorem C1_counterexample :
    (conn_S1 (bytes "QUIT\x00\n")).state = state_t.S1 ∧
    (conn_S1 (bytes "QUIT\x00\n")).read_buf.take (conn_S1 (bytes "QUIT\x00\n")).nread
      = bytes "QUIT\x00" ++ 10 :: [] ∧
    10 ∉ bytes "QUIT\x00" ∧
    classify (spec_token (bytes "QUIT\x00")) = state_t.S5 ∧
    (loop_body 5 1 (conn_S1 (bytes "QUIT\x00\n")) entry_5 world_idle).2.1.state = state_t.S2 ∧
    (loop_body 5 1 (conn_S1 (bytes "QUIT\x00\n")) entry_5 world_idle).2.1.state
      ≠ classify (spec_token (bytes "QUIT\x00")) := by
  decide

/-- C2 (code bug, evaluated): a connection is admitted, the transport takes the
greeting in two pieces (10 bytes, then 25), and the client sends NOOP. The write
for the NOOP reply starts when no message is pending, yet it offers 15 bytes from
offset 10 of the 15-byte reply: `nwritten` is still 10. -/
theorem C2_later_reply_starts_at_stale_offset :
    (process_event 6 (admitted world_short_write).1 (admitted world_short_write).2 5 3).map
      (fun out => (out.2.2.log, (out.2.1.data 0).nwritten)) =
    some ([os_event.write 5 str_greeting 0 35 (write_result.ok 10),
      os_event.write 5 str_greeting 10 25 (write_result.ok 25),
      os_event.read 5 0 512 (read_result.ok (bytes "NOOP\r\n")),
      os_event.write 5 str_noop 10 15 (write_result.ok 15),
      os_event.read 5 0 512 read_result.eagain], 10) := by
  decide

/-- C3 (code bug, evaluated): a connection admitted at time 100 has soft
deadline 400; at time 200 `process_event` writes the whole greeting and returns
keep-open in S1, and the registry entry still holds 400, not 500. -/
theorem C3_registry_deadline_not_refreshed :
    ((admitted world_greeting_at_200).1.sockets 0).timeout = 400 ∧
    (process_event 6 (admitted world_greeting_at_200).1 (admitted world_greeting_at_200).2 5 2).map
      (fun out => (out.1, out.2.2.log, (out.2.1.data 0).state, (out.2.1.sockets 0).timeout)) =
    some (0, [os_event.write 5 str_greeting 0 35 (write_result.ok 35)], state_t.S1, 400) := by
  decide

theorem parse_line_no_line (x : data_t) (hm : memchr x.read_buf 10 x.nread = none)
    (hn : x.nread ≠ 512) : parse_line x = x := by
  unfold parse_line
  rw [hm]
  simp [hn]

/-- A connection in S1 with a buffered line fragment: while reads would block, a
pass of the loop changes neither the connection nor `done`. -/
theorem loop_body_fragment (sock : Int) (flags : Nat) (x : data_t) (e : entry_t)
    (w : world_t) (hflags : flags &&& BOUNCER_CAN_READ ≠ 0) (hstate : x.state = state_t.S1)
    (h0 : x.nread ≠ 0) (hn : x.nread ≠ 512) (hm : memchr x.read_buf 10 x.nread = none)
    (hr : w.reads.headD read_result.eagain = read_result.eagain) :
    loop_body sock flags x e w =
      (pass_t.next false, x, e,
        { w with reads := w.reads.tail, clock := w.clock.tail,
                 log := w.log ++
                   [os_event.read sock x.nread (512 - x.nread) read_result.eagain] }) := by
  simp only [loop_body, hstate, case_S1, time, safe_read, hflags, ne_eq, not_false_eq_true,
    if_true, hr, parse_line_no_line x hm hn, h0, decide_False]

theorem loop_spins (sock : Int) (flags : Nat) (x : data_t)
    (hflags : flags &&& BOUNCER_CAN_READ ≠ 0) (hstate : x.state = state_t.S1)
    (h0 : x.nread ≠ 0) (hn : x.nread ≠ 512) (hm : memchr x.read_buf 10 x.nread = none) :
    ∀ (fuel : Nat) (e : entry_t) (w : world_t), (∀ r ∈ w.reads, r = read_result.eagain) →
      process_event_loop sock flags fuel x e w = none := by
  intro fuel
  induction fuel with
  | zero => intro e w _; rfl
  | succ fuel ih =>
    intro e w hw
    have hr : w.reads.headD read_result.eagain = read_result.eagain := by
      cases hreads : w.reads with
      | nil => rfl
      | cons r rs => simpa using hw r (by simp [hreads])
    rw [process_event_loop, loop_body_fragment sock flags x e w hflags hstate h0 hn hm hr]
    apply ih
    intro r hmem
    exact hw r (List.mem_of_mem_tail hmem)

/-- C4 (code bug, evaluated): descriptor 5 is in S1 with the single byte `N`
buffered and every read reports would-block. With read permitted (alone or
together with write) `process_event` is still inside its loop after any number
`fuel` of passes: it never returns. -/
theorem C4_buffered_fragment_never_returns (fuel k : Nat) (writes : List write_result)
    (clock : List Nat) :
    process_event fuel (registry_one (conn_S1 (bytes "N")))
      { reads := List.replicate k read_result.eagain, writes := writes, clock := clock,
        log := [] } 5 1 = none ∧
    process_event fuel (registry_one (conn_S1 (bytes "N")))
      { reads := List.replicate k read_result.eagain, writes := writes, clock := clock,
        log := [] } 5 3 = none := by
  have hfind : find_socket (registry_one (conn_S1 (bytes "N"))) 5 = some 0 := by decide
  constructor
  · simp only [process_event, hfind]
    rw [loop_spins 5 1 _ (by decide) (by decide) (by decide) (by decide) (by decide)]
    intro r hr
    exact List.eq_of_mem_replicate hr
  · simp only [process_event, hfind]
    rw [loop_spins 5 3 _ (by decide) (by decide) (by decide) (by decide) (by decide)]
    intro r hr
    exact List.eq_of_mem_replicate hr

theorem buf_write_buf_write (b p c : List Nat) :
    buf_write (buf_write b 0 p) p.length c = buf_write b 0 (p ++ c) := by
  simp [buf_write, List.take_append_eq_append_take, List.drop_append_eq_append_drop, Nat.add_comm]

theorem loop_next (sock : Int) (flags fuel : Nat) (x x' : data_t) (e e' : entry_t)
    (w w' : world_t) (h : loop_body sock flags x e w = (pass_t.next false, x', e', w')) :
    process_event_loop sock flags (fuel + 1) x e w = process_event_loop sock flags fuel x' e' w' := by
  simp [process_event_loop, h]

theorem memchr_buffered (x : data_t) (p : List Nat) (h : 10 ∉ p) :
    memchr (buffered x p).read_buf 10 (buffered x p).nread = none := by
  rw [memchr_take]
  have : List.take (buffered x p).nread (buffered x p).read_buf = p := by
    simp [buffered, buf_write]
  rw [this]
  exact memchr_none 10 p h _


/-- Would-block passes over a buffered fragment leave the connection and the
local entry as they are and use up the would-block outcomes. -/
theorem eagain_passes (sock : Int) (flags : Nat) (x : data_t)
    (hflags : flags &&& BOUNCER_CAN_READ ≠ 0) (hstate : x.state = state_t.S1)
    (h0 : x.nread ≠ 0) (hn : x.nread ≠ 512) (hm : memchr x.read_buf 10 x.nread = none)
    (rs : List read_result) (fuel : Nat) (e : entry_t) :
    ∀ (k : Nat) (w : world_t), w.reads = List.replicate k read_result.eagain ++ rs →
      ∃ w', process_event_loop sock flags (fuel + k) x e w = process_event_loop sock flags fuel x e w'
        ∧ w'.reads = rs ∧ w'.writes = w.writes := by
  intro k
  induction k with
  | zero => intro w hw; exact ⟨w, rfl, by simpa using hw, rfl⟩
  | succ k ih =>
    intro w hw
    have hr : w.reads.headD read_result.eagain = read_result.eagain := by
      rw [hw]; simp [List.replicate_succ]
    have hstep := loop_body_fragment sock flags x e w hflags hstate h0 hn hm hr
    have htail : w.reads.tail = List.replicate k read_result.eagain ++ rs := by
      rw [hw]; simp [List.replicate_succ]
    obtain ⟨w', h1, h2, h3⟩ := ih
      { w with reads := w.reads.tail, clock := w.clock.tail,
               log := w.log ++ [os_event.read sock x.nread (512 - x.nread) read_result.eagain] }
      htail
    refine ⟨w', ?_, h2, h3⟩
    rw [← h1, ← Nat.add_assoc]
    exact loop_next sock flags (fuel + k) x x e e w _ hstep

/-- A pass in S1 whose read delivers `d`. -/
theorem loop_body_data (sock : Int) (flags : Nat) (x : data_t) (e : entry_t) (w : world_t)
    (d : List Nat) (rs : List read_result)
    (hflags : flags &&& BOUNCER_CAN_READ ≠ 0) (hstate : x.state = state_t.S1)
    (hd : d ≠ []) (hr : w.reads = read_result.ok d :: rs) :
    ∃ e' w', loop_body sock flags x e w =
        (pass_t.next false,
          parse_line { x with read_buf := buf_write x.read_buf x.nread d,
                              nread := x.nread + d.length }, e', w')
      ∧ w'.reads = rs ∧ w'.writes = w.writes := by
  have hlen : d.length > 0 := List.length_pos.2 hd
  refine ⟨{ e with timeout := w.clock.headD 0 + 300 },
    { w with reads := rs, clock := w.clock.tail,
             log := w.log ++ [os_event.read sock x.nread (512 - x.nread) (read_result.ok d)] },
    ?_, rfl, rfl⟩
  simp only [loop_body, hstate, case_S1, time, safe_read, hflags, ne_eq, not_false_eq_true,
    if_true, hr, List.headD_cons, hlen, List.tail_cons]


theorem proper_front_of_line (p f line : List Nat) (h : p ++ f = line ++ [10]) (hf : f ≠ [])
    (h10 : 10 ∉ line) : 10 ∉ p ∧ p.length ≤ line.length := by
  rcases List.eq_nil_or_concat f with hnil | ⟨L, b, hL⟩
  · exact absurd hnil hf
  · rw [List.concat_eq_append] at hL
    subst hL
    rw [← List.append_assoc] at h
    have hpl := (List.append_inj' h rfl).1
    constructor
    · intro hp
      exact h10 (hpl ▸ List.mem_append_left L hp)
    · rw [← hpl]; simp

theorem chunk_bytes_ne_nil (rest : List (Nat × List Nat)) (hne : rest ≠ [])
    (hc : ∀ q ∈ rest, q.2 ≠ []) : chunk_bytes rest ≠ [] := by
  cases rest with
  | nil => exact absurd rfl hne
  | cons q rest =>
    obtain ⟨k, c⟩ := q
    have : c ≠ [] := hc (k, c) (by simp)
    simp [chunk_bytes, this]

/-- Reading the remaining chunks of a line, with would-block results in between,
brings the loop to the connection state that the whole line read at once gives. -/
theorem chunks_arrive (sock : Int) (flags : Nat) (hflags : flags &&& BOUNCER_CAN_READ ≠ 0)
    (x0 : data_t) (hstate : x0.state = state_t.S1) (line : List Nat) (h10 : 10 ∉ line)
    (hlen : line.length + 1 ≤ 512) (later : List read_result) (fuel : Nat) :
    ∀ (rest : List (Nat × List Nat)) (p : List Nat) (e : entry_t) (w : world_t),
      rest ≠ [] → (∀ q ∈ rest, q.2 ≠ []) → p ≠ [] → p ++ chunk_bytes rest = line ++ [10] →
      w.reads = gapped_reads rest ++ later →
      ∃ e' w', process_event_loop sock flags (fuel + (gapped_reads rest).length) (buffered x0 p) e w
          = process_event_loop sock flags fuel (parse_line (buffered x0 (line ++ [10]))) e' w'
        ∧ w'.reads = later ∧ w'.writes = w.writes := by
  intro rest
  induction rest with
  | nil => intro p e w hne; exact absurd rfl hne
  | cons q rest ih =>
    intro p e w _ hc hp hsplit hw
    obtain ⟨k, c⟩ := q
    have hcne : c ≠ [] := hc (k, c) (by simp)
    have hcr : c ++ chunk_bytes rest ≠ [] := by simp [hcne]
    simp only [chunk_bytes] at hsplit
    obtain ⟨hp10, hplen⟩ := proper_front_of_line p _ line hsplit hcr h10
    have hclen : 0 < c.length := List.length_pos.2 hcne
    have hplen0 : 0 < p.length := List.length_pos.2 hp
    -- the would-block passes
    have hw1 : w.reads = List.replicate k read_result.eagain ++
        (read_result.ok c :: (gapped_reads rest ++ later)) := by
      rw [hw]; simp [gapped_reads]
    obtain ⟨w1, hrun1, hr1, hwr1⟩ := eagain_passes sock flags (buffered x0 p) hflags hstate
      (show p.length ≠ 0 by omega) (show p.length ≠ 512 by omega) (memchr_buffered x0 p hp10)
      (read_result.ok c :: (gapped_reads rest ++ later))
      (fuel + (gapped_reads rest).length + 1) e k w hw1
    -- the pass that reads `c`
    obtain ⟨e2, w2, hbody, hr2, hwr2⟩ := loop_body_data sock flags (buffered x0 p) e w1 c
      (gapped_reads rest ++ later) hflags hstate hcne hr1
    have hx : ({ buffered x0 p with
          read_buf := buf_write (buffered x0 p).read_buf (buffered x0 p).nread c,
          nread := (buffered x0 p).nread + c.length } : data_t) = buffered x0 (p ++ c) := by
      simp [buffered, buf_write_buf_write]
    rw [hx] at hbody
    have hcount : fuel + (gapped_reads ((k, c) :: rest)).length
        = fuel + (gapped_reads rest).length + 1 + k := by
      simp [gapped_reads]; omega
    rw [hcount, hrun1]
    by_cases hrest : rest = []
    · subst hrest
      simp only [chunk_bytes, List.append_nil] at hsplit
      rw [hsplit] at hbody
      refine ⟨e2, w2, ?_, by simpa [gapped_reads] using hr2, by rw [hwr2, hwr1]⟩
      simpa [gapped_reads] using loop_next sock flags fuel _ _ e e2 w1 w2 hbody
    · have hc' : ∀ q ∈ rest, q.2 ≠ [] := fun q hq => hc q (by simp [hq])
      have hsplit' : (p ++ c) ++ chunk_bytes rest = line ++ [10] := by
        rw [List.append_assoc]; exact hsplit
      obtain ⟨hpc10, hpclen⟩ := proper_front_of_line (p ++ c) _ line hsplit'
        (chunk_bytes_ne_nil rest hrest hc') h10
      have hparse : parse_line (buffered x0 (p ++ c)) = buffered x0 (p ++ c) :=
        parse_line_no_line _ (memchr_buffered x0 (p ++ c) hpc10)
          (show (p ++ c).length ≠ 512 by omega)
      rw [hparse] at hbody
      obtain ⟨e3, w3, hrun3, hr3, hwr3⟩ := ih (p ++ c) e2 w2 hrest hc' (by simp [hp]) hsplit' hr2
      refine ⟨e3, w3, ?_, hr3, by rw [hwr3, hwr2, hwr1]⟩
      rw [← hrun3]
      exact loop_next sock flags _ _ _ e e2 w1 w2 hbody


theorem buffered_of_empty (x : data_t) (d : List Nat) (h : x.nread = 0) :
    ({ x with read_buf := buf_write x.read_buf x.nread d, nread := x.nread + d.length } : data_t)
      = buffered x d := by
  simp [buffered, h]

theorem line_in_one_read_eq (sock : Int) (flags : Nat) (x : data_t) (e : entry_t) (w : world_t)
    (line : List Nat) (later : List read_result) (hflags : flags &&& BOUNCER_CAN_READ ≠ 0)
    (hstate : x.state = state_t.S1) (hempty : x.nread = 0) :
    line_in_one_read sock flags x e w line later = parse_line (buffered x (line ++ [10])) := by
  obtain ⟨e', w', hbody, _, _⟩ := loop_body_data sock flags x e
    { w with reads := read_result.ok (line ++ [10]) :: later } (line ++ [10]) later hflags hstate
    (by simp) rfl
  rw [buffered_of_empty x _ hempty] at hbody
  simp [line_in_one_read, hbody]

theorem parse_line_buffered (x : data_t) (line : List Nat) (h10 : 10 ∉ line) :
    (parse_line (buffered x (line ++ [10]))).state = classify (command_word line) ∧
    (parse_line (buffered x (line ++ [10]))).nread = 0 := by
  have hb : (buffered x (line ++ [10])).read_buf
      = line ++ 10 :: x.read_buf.drop (line.length + 1) := by
    simp [buffered, buf_write]
  rw [parse_line_of_line _ line _ hb (by simp [buffered]) h10]
  simp [buffered]

theorem loop_body_reply_without_write (sock : Int) (flags : Nat) (x : data_t) (e : entry_t)
    (w : world_t) (token : List Nat) (hflags : flags &&& BOUNCER_CAN_WRITE = 0)
    (hstate : x.state = classify token) :
    loop_body sock flags x e w = (pass_t.next true, x, e, { w with clock := w.clock.tail }) := by
  unfold classify at hstate
  split_ifs at hstate <;> simp [loop_body, hstate, case_send, hflags, time]

/-- C5: a command line of at most 512 bytes with its LF is delivered to a
connection in S1 with an empty read buffer as the non-empty chunks `c0` and those
of `rest`, with any number of would-block results between them. After the passes
that consume these reads, `process_event` continues from the very connection
state (phase, buffer contents, read count) that one pass gives when a single read
delivers the whole line, with the same reads and writes still to come; that
state is the classification of the line with no bytes left in the buffer; and
without write permission the invocation returns keep-open in that state. The
single read is the case `rest = []`. -/
theorem C5_chunked_line (sock : Int) (flags fuel : Nat) (x0 : data_t) (e : entry_t) (w : world_t)
    (line c0 : List Nat) (rest : List (Nat × List Nat)) (later : List read_result)
    (hflags : flags &&& BOUNCER_CAN_READ ≠ 0)
    (hstate : x0.state = state_t.S1) (hempty : x0.nread = 0)
    (h10 : 10 ∉ line) (hlen : line.length + 1 ≤ 512)
    (hc0 : c0 ≠ []) (hrest : ∀ q ∈ rest, q.2 ≠ [])
    (hsplit : c0 ++ chunk_bytes rest = line ++ [10])
    (hreads : w.reads = read_result.ok c0 :: (gapped_reads rest ++ later)) :
    (∃ e1 w1,
      process_event_loop sock flags (fuel + (gapped_reads rest).length + 1) x0 e w
        = process_event_loop sock flags fuel (line_in_one_read sock flags x0 e w line later) e1 w1
      ∧ w1.reads = later ∧ w1.writes = w.writes) ∧
    (line_in_one_read sock flags x0 e w line later).state = classify (command_word line) ∧
    (line_in_one_read sock flags x0 e w line later).nread = 0 ∧
    (flags &&& BOUNCER_CAN_WRITE = 0 → ∃ e1 w1,
      process_event_loop sock flags (fuel + (gapped_reads rest).length + 2) x0 e w
        = some (0, line_in_one_read sock flags x0 e w line later, e1, w1)
      ∧ w1.reads = later ∧ w1.writes = w.writes) := by
  rw [line_in_one_read_eq sock flags x0 e w line later hflags hstate hempty]
  obtain ⟨hXs, hXn⟩ := parse_line_buffered x0 line h10
  have hreach : ∀ fuel, ∃ e1 w1,
      process_event_loop sock flags (fuel + (gapped_reads rest).length + 1) x0 e w
        = process_event_loop sock flags fuel (parse_line (buffered x0 (line ++ [10]))) e1 w1
      ∧ w1.reads = later ∧ w1.writes = w.writes := by
    intro fuel
    obtain ⟨e1, w1, hbody, hr1, hwr1⟩ := loop_body_data sock flags x0 e w c0
      (gapped_reads rest ++ later) hflags hstate hc0 hreads
    rw [buffered_of_empty x0 _ hempty] at hbody
    by_cases hnil : rest = []
    · subst hnil
      simp only [chunk_bytes, List.append_nil] at hsplit
      rw [hsplit] at hbody
      refine ⟨e1, w1, ?_, by simpa [gapped_reads] using hr1, hwr1⟩
      simpa [gapped_reads] using loop_next sock flags fuel _ _ e e1 w w1 hbody
    · obtain ⟨hc10, hclen⟩ := proper_front_of_line c0 _ line hsplit
        (chunk_bytes_ne_nil rest hnil hrest) h10
      have hparse : parse_line (buffered x0 c0) = buffered x0 c0 :=
        parse_line_no_line _ (memchr_buffered x0 c0 hc10) (show c0.length ≠ 512 by omega)
      rw [hparse] at hbody
      obtain ⟨e2, w2, hrun, hr2, hwr2⟩ := chunks_arrive sock flags hflags x0 hstate line h10 hlen
        later fuel rest c0 e1 w1 hnil hrest hc0 hsplit hr1
      refine ⟨e2, w2, ?_, hr2, by rw [hwr2, hwr1]⟩
      rw [← hrun]
      exact loop_next sock flags _ _ _ e e1 w w1 hbody
  refine ⟨hreach fuel, hXs, hXn, ?_⟩
  intro hnowrite
  obtain ⟨e1, w1, hrun, hr1, hwr1⟩ := hreach (fuel + 1)
  refine ⟨e1, { w1 with clock := w1.clock.tail }, ?_, hr1, hwr1⟩
  have hshift : fuel + (gapped_reads rest).length + 2 = fuel + 1 + (gapped_reads rest).length + 1 := by
    omega
  rw [hshift, hrun, process_event_loop,
    loop_body_reply_without_write sock flags _ e1 w1 _ hnowrite hXs]

/-- C5 for `NOOP` CR LF arriving as `NO`, `OP` CR and LF with would-block results
in between: the invocation returns keep-open in S3 with an empty buffer, as for
the whole line in one read. -/
theorem C5_chunked_line_witness :
    (line_in_one_read 5 1 (conn_S1 []) entry_5 world_chunked (bytes "NOOP\r") []).state
      = state_t.S3 ∧
    (process_event_loop 5 1 7 (conn_S1 []) entry_5 world_chunked).map
      (fun out => (out.1, out.2.1.state, out.2.1.nread)) = some (0, state_t.S3, 0) :=
  ⟨(C5_chunked_line 5 1 0 (conn_S1 []) entry_5 world_chunked (bytes "NOOP\r") (bytes "NO")
      [(1, bytes "OP\r"), (2, bytes "\n")] [] (by decide) (by decide) (by decide) (by decide)
      (by decide) (by decide) (by decide) (by decide) (by decide)).2.1.trans (by decide),
    by decide⟩

theorem find_socket_some (r : registry_t) (sock : Int) (idx : Nat)
    (h : find_socket r sock = some idx) : idx < r.connections ∧ (r.sockets idx).sock = sock := by
  unfold find_socket at h
  have h1 := List.find?_some h
  have h2 := List.mem_of_find?_eq_some h
  exact ⟨List.mem_range.1 h2, by simpa using h1⟩

/-- A write that starts with nothing pending and is accepted in full. -/
theorem do_write_full (x : data_t) (e : entry_t) (buf : List Nat) (state : state_t)
    (w : world_t) (ws : List write_result) (hpend : x.write_buf = none)
    (hw : w.writes = write_result.ok buf.length :: ws) :
    do_write x e buf buf.length state w =
      (0, { x with towrite := 0, write_buf := none, state := state },
        { e with timeout := w.clock.headD 0 + 300 },
        { w with clock := w.clock.tail, writes := ws,
                 log := w.log ++
                   [os_event.write e.sock buf x.nwritten buf.length
                     (write_result.ok buf.length)] }) := by
  simp [do_write, time, safe_write, hpend, hw]

/-- The pass in S1 whose read delivers `d`, with the entry and the world it leaves. -/
theorem loop_body_data_eq (sock : Int) (flags : Nat) (x : data_t) (e : entry_t) (w : world_t)
    (d : List Nat) (rs : List read_result)
    (hflags : flags &&& BOUNCER_CAN_READ ≠ 0) (hstate : x.state = state_t.S1)
    (hd : d ≠ []) (hr : w.reads = read_result.ok d :: rs) :
    loop_body sock flags x e w =
        (pass_t.next false,
          parse_line { x with read_buf := buf_write x.read_buf x.nread d,
                              nread := x.nread + d.length },
          { e with timeout := w.clock.headD 0 + 300 },
          { w with reads := rs, clock := w.clock.tail,
                   log := w.log ++
                     [os_event.read sock x.nread (512 - x.nread) (read_result.ok d)] }) := by
  have hlen : d.length > 0 := List.length_pos.2 hd
  simp only [loop_body, hstate, case_S1, time, safe_read, hflags, ne_eq, not_false_eq_true,
    if_true, hr, List.headD_cons, hlen, List.tail_cons]

theorem written_bytes_append (sock : Int) (l1 l2 : List os_event) :
    written_bytes sock (l1 ++ l2) = written_bytes sock l1 ++ written_bytes sock l2 := by
  induction l1 with
  | nil => simp [written_bytes]
  | cons ev l1 ih =>
    cases ev with
    | write s buf off size res =>
      cases res with
      | ok n => by_cases hs : s = sock <;> simp [written_bytes, hs, ih]
      | eagain => simp [written_bytes, ih]
      | fail => simp [written_bytes, ih]
    | read s off size res => simp [written_bytes, ih]
    | epoll_del s => simp [written_bytes, ih]
    | shutdown s => simp [written_bytes, ih]
    | close s => simp [written_bytes, ih]



theorem loop_done (sock : Int) (flags fuel : Nat) (x x' : data_t) (e e' : entry_t)
    (w w' : world_t) (h : loop_body sock flags x e w = (pass_t.next true, x', e', w')) :
    process_event_loop sock flags (fuel + 1) x e w = some (0, x', e', w') := by
  simp [process_event_loop, h]

theorem loop_ret (sock : Int) (flags fuel v : Nat) (x x' : data_t) (e e' : entry_t)
    (w w' : world_t) (h : loop_body sock flags x e w = (pass_t.ret v, x', e', w')) :
    process_event_loop sock flags (fuel + 1) x e w = some (v, x', e', w') := by
  simp [process_event_loop, h]

/-- The pass in S1 in which a whole line arrives in an empty buffer. -/
theorem loop_body_whole_line (sock : Int) (flags : Nat) (x : data_t) (e : entry_t) (w : world_t)
    (line : List Nat) (rs : List read_result)
    (hflags : flags &&& BOUNCER_CAN_READ ≠ 0) (hstate : x.state = state_t.S1)
    (hempty : x.nread = 0) (h10 : 10 ∉ line)
    (hr : w.reads = read_result.ok (line ++ [10]) :: rs) :
    ∃ x1 e1 w1, loop_body sock flags x e w = (pass_t.next false, x1, e1, w1) ∧
      x1.state = classify (command_word line) ∧ x1.nread = 0 ∧ x1.nwritten = x.nwritten ∧
      x1.towrite = x.towrite ∧ x1.write_buf = x.write_buf ∧ e1.sock = e.sock ∧
      w1.reads = rs ∧ w1.writes = w.writes ∧
      w1.log = w.log ++ [os_event.read sock 0 512 (read_result.ok (line ++ [10]))] := by
  have hbody := loop_body_data_eq sock flags x e w (line ++ [10]) rs hflags hstate (by simp) hr
  have hb : ({ x with read_buf := buf_write x.read_buf x.nread (line ++ [10]),
                      nread := x.nread + (line ++ [10]).length } : data_t).read_buf
      = line ++ 10 :: x.read_buf.drop (line.length + 1) := by
    simp [buf_write, hempty]
  rw [parse_line_of_line _ line _ hb (by simp; omega) h10] at hbody
  refine ⟨_, _, _, hbody, rfl, ?_, rfl, rfl, rfl, rfl, rfl, rfl, ?_⟩
  · simp [hempty]
  · simp [hempty]

/-- A reply arm with write permitted, nothing pending and the whole reply
accepted: the pass leaves `done` clear and enters `state`. -/
theorem case_send_full (flags : Nat) (buf : List Nat) (state : state_t) (x : data_t)
    (e : entry_t) (w : world_t) (ws : List write_result)
    (hwrite : flags &&& BOUNCER_CAN_WRITE ≠ 0) (hpend : x.write_buf = none)
    (hw : w.writes = write_result.ok buf.length :: ws) :
    ∃ x2 e2 w2, case_send flags buf state x e w = (pass_t.next false, x2, e2, w2) ∧
      x2.state = state ∧ x2.nread = x.nread ∧ x2.nwritten = x.nwritten ∧
      x2.write_buf = none ∧ x2.towrite = 0 ∧ x2.read_buf = x.read_buf ∧ e2.sock = e.sock ∧
      w2.reads = w.reads ∧ w2.writes = ws ∧
      w2.log = w.log ++
        [os_event.write e.sock buf x.nwritten buf.length (write_result.ok buf.length)] := by
  refine ⟨{ x with towrite := 0, write_buf := none, state := state },
    { e with timeout := w.clock.headD 0 + 300 },
    { w with clock := w.clock.tail, writes := ws,
             log := w.log ++
               [os_event.write e.sock buf x.nwritten buf.length (write_result.ok buf.length)] },
    ?_, rfl, rfl, rfl, rfl, rfl, rfl, rfl, rfl, rfl, rfl⟩
  simp [case_send, hwrite, do_write_full x e buf state w ws hpend hw]

/-- A pass in S1 with an empty buffer whose read would block sets `done`. -/
theorem loop_body_idle (sock : Int) (flags : Nat) (x : data_t) (e : entry_t) (w : world_t)
    (hread : flags &&& BOUNCER_CAN_READ ≠ 0) (hstate : x.state = state_t.S1)
    (hempty : x.nread = 0) (hr : w.reads.headD read_result.eagain = read_result.eagain) :
    loop_body sock flags x e w =
      (pass_t.next true, x, e,
        { w with reads := w.reads.tail, clock := w.clock.tail,
                 log := w.log ++ [os_event.read sock 0 512 read_result.eagain] }) := by
  have hp : parse_line x = x := by
    apply parse_line_no_line
    · rw [hempty]; cases x.read_buf <;> rfl
    · rw [hempty]; decide
  simp only [loop_body, hstate, case_S1, time, safe_read, hread, ne_eq, not_false_eq_true,
    if_true, hr, hp, hempty, decide_True]

theorem noop_round_trip (fuel : Nat) (sock : Int) (flags : Nat) (x : data_t) (e : entry_t)
    (w : world_t) (rs : List read_result) (ws : List write_result)
    (hread : flags &&& BOUNCER_CAN_READ ≠ 0) (hwrite : flags &&& BOUNCER_CAN_WRITE ≠ 0)
    (hstate : x.state = state_t.S1) (hempty : x.nread = 0) (hsent : x.nwritten = 0)
    (hpend : x.write_buf = none)
    (hreads : w.reads = read_result.ok (bytes "NOOP\r\n") :: rs)
    (hnext : rs.headD read_result.eagain = read_result.eagain)
    (hwrites : w.writes = write_result.ok 15 :: ws) :
    ∃ x' e' w', process_event_loop sock flags (fuel + 3) x e w = some (0, x', e', w') ∧
      w'.log = w.log ++ [os_event.read sock 0 512 (read_result.ok (bytes "NOOP\r\n")),
        os_event.write e.sock str_noop 0 15 (write_result.ok 15),
        os_event.read sock 0 512 read_result.eagain] ∧
      x'.state = state_t.S1 ∧ x'.nread = 0 := by
  obtain ⟨x1, e1, w1, hb1, hs1, hn1, hnw1, -, hp1, hsock1, hr1, hw1, hl1⟩ :=
    loop_body_whole_line sock flags x e w (bytes "NOOP\r") rs hread hstate hempty
      (by decide) hreads
  have hcl : classify (command_word (bytes "NOOP\r")) = state_t.S3 := by decide
  rw [hcl] at hs1
  obtain ⟨x2, e2, w2, hb2, hs2, hn2, -, -, -, -, -, hr2, -, hl2⟩ :=
    case_send_full flags str_noop state_t.S1 x1 e1 (time w1).2 ws hwrite (hp1.trans hpend)
      (hw1.trans hwrites)
  have hb2' : loop_body sock flags x1 e1 w1 = (pass_t.next false, x2, e2, w2) := by
    simp only [loop_body, hs1]; exact hb2
  have hb3 := loop_body_idle sock flags x2 e2 w2 hread hs2 (hn2.trans hn1)
    (by rw [hr2]; simp only [time]; rw [hr1]; exact hnext)
  refine ⟨x2, e2, { w2 with reads := w2.reads.tail, clock := w2.clock.tail,
                            log := w2.log ++ [os_event.read sock 0 512 read_result.eagain] },
    ?_, ?_, hs2, hn2.trans hn1⟩
  · rw [show fuel + 3 = (fuel + 2) + 1 from rfl, loop_next sock flags _ _ _ _ _ _ _ hb1,
      show fuel + 2 = (fuel + 1) + 1 from rfl, loop_next sock flags _ _ _ _ _ _ _ hb2']
    exact loop_done sock flags fuel _ _ _ _ _ _ hb3
  · simp only [hl2, time, hl1, hnw1, hsent, hsock1, List.append_assoc, List.singleton_append]
    rfl


theorem quit_closes (fuel : Nat) (sock : Int) (flags : Nat) (x : data_t) (e : entry_t)
    (w : world_t) (rs : List read_result) (ws : List write_result)
    (hread : flags &&& BOUNCER_CAN_READ ≠ 0) (hwrite : flags &&& BOUNCER_CAN_WRITE ≠ 0)
    (hstate : x.state = state_t.S1) (hempty : x.nread = 0) (hsent : x.nwritten = 0)
    (hpend : x.write_buf = none)
    (hreads : w.reads = read_result.ok (bytes "QUIT\r\n") :: rs)
    (hwrites : w.writes = write_result.ok 16 :: ws) :
    ∃ x' e' w', process_event_loop sock flags (fuel + 3) x e w = some (1, x', e', w') ∧
      w'.log = w.log ++ [os_event.read sock 0 512 (read_result.ok (bytes "QUIT\r\n")),
        os_event.write e.sock str_quit 0 16 (write_result.ok 16)] ∧
      x'.state = state_t.FIN ∧ w'.reads = rs ∧ w'.writes = ws := by
  obtain ⟨x1, e1, w1, hb1, hs1, hn1, hnw1, -, hp1, hsock1, hr1, hw1, hl1⟩ :=
    loop_body_whole_line sock flags x e w (bytes "QUIT\r") rs hread hstate hempty
      (by decide) hreads
  have hcl : classify (command_word (bytes "QUIT\r")) = state_t.S2 := by decide
  rw [hcl] at hs1
  obtain ⟨x2, e2, w2, hb2, hs2, hn2, -, -, -, -, -, hr2, hw2, hl2⟩ :=
    case_send_full flags str_quit state_t.FIN x1 e1 (time w1).2 ws hwrite (hp1.trans hpend)
      (hw1.trans hwrites)
  have hb2' : loop_body sock flags x1 e1 w1 = (pass_t.next false, x2, e2, w2) := by
    simp only [loop_body, hs1]; exact hb2
  have hb3 : loop_body sock flags x2 e2 w2 = (pass_t.ret 1, x2, e2, (time w2).2) := by
    simp only [loop_body, hs2]
  refine ⟨x2, e2, (time w2).2, ?_, ?_, hs2, ?_, ?_⟩
  · rw [show fuel + 3 = (fuel + 2) + 1 from rfl, loop_next sock flags _ _ _ _ _ _ _ hb1,
      show fuel + 2 = (fuel + 1) + 1 from rfl, loop_next sock flags _ _ _ _ _ _ _ hb2']
    exact loop_ret sock flags fuel 1 _ _ _ _ _ _ hb3
  · simp only [hl2, time, hl1, hnw1, hsent, hsock1, List.append_assoc, List.singleton_append]
    rfl
  · simp only [time, hr2, hr1]
  · simp only [time, hw2]

/-- C6: for a connection in S1 with an empty read buffer, zero bytes sent and
nothing pending, `process_event` with read and write permitted, a read that
delivers `NOOP` CR LF, the reply accepted in full and the following read
reporting would-block returns keep-open (0); the only write offers the reply
`250 2.0.0 OK.` CR LF from offset 0 and all 15 bytes are accepted, and the
connection is in S1 again with an empty read buffer. -/
theorem C6_noop_round_trip (fuel : Nat) (r : registry_t) (w : world_t) (sock : Int) (flags idx : Nat)
    (rs : List read_result) (ws : List write_result)
    (hfind : find_socket r sock = some idx)
    (hread : flags &&& BOUNCER_CAN_READ ≠ 0) (hwrite : flags &&& BOUNCER_CAN_WRITE ≠ 0)
    (hstate : (r.data (r.sockets idx).data).state = state_t.S1)
    (hempty : (r.data (r.sockets idx).data).nread = 0)
    (hsent : (r.data (r.sockets idx).data).nwritten = 0)
    (hpend : (r.data (r.sockets idx).data).write_buf = none)
    (hreads : w.reads = read_result.ok (bytes "NOOP\r\n") :: rs)
    (hnext : rs.headD read_result.eagain = read_result.eagain)
    (hwrites : w.writes = write_result.ok 15 :: ws) :
    ∃ r' w', process_event (fuel + 3) r w sock flags = some (0, r', w') ∧
      w'.log = w.log ++ [os_event.read sock 0 512 (read_result.ok (bytes "NOOP\r\n")),
        os_event.write sock (bytes "250 2.0.0 OK.\r\n") 0 15 (write_result.ok 15),
        os_event.read sock 0 512 read_result.eagain] ∧
      written_bytes sock w'.log = written_bytes sock w.log ++ bytes "250 2.0.0 OK.\r\n" ∧
      (r'.data (r'.sockets idx).data).state = state_t.S1 ∧
      (r'.data (r'.sockets idx).data).nread = 0 := by
  obtain ⟨x', e', w', hrun, hlog, hs, hn⟩ := noop_round_trip fuel sock flags
    (r.data (r.sockets idx).data) (r.sockets idx) w rs ws hread hwrite hstate hempty hsent hpend
    hreads hnext hwrites
  rw [(find_socket_some r sock idx hfind).2] at hlog
  refine ⟨{ r with data := Function.update r.data (r.sockets idx).data x' }, w', ?_, hlog, ?_, ?_, ?_⟩
  · simp [process_event, hfind, hrun]
  · rw [hlog, written_bytes_append]
    simp [written_bytes]
    decide
  · simpa using hs
  · simpa using hn

/-- C7: for a connection in S1 with an empty read buffer, zero bytes sent and
nothing pending, `process_event` with read and write permitted, a read that
delivers `QUIT` CR LF and the reply accepted in full returns close-now (1); the
only write offers `221 2.0.0 Bye.` CR LF from offset 0 with all 16 bytes
accepted, the log ends with that write (no later read or write, the remaining
outcomes are untouched), and the connection is in FIN. -/
theorem C7_quit_closes (fuel : Nat) (r : registry_t) (w : world_t) (sock : Int) (flags idx : Nat)
    (rs : List read_result) (ws : List write_result)
    (hfind : find_socket r sock = some idx)
    (hread : flags &&& BOUNCER_CAN_READ ≠ 0) (hwrite : flags &&& BOUNCER_CAN_WRITE ≠ 0)
    (hstate : (r.data (r.sockets idx).data).state = state_t.S1)
    (hempty : (r.data (r.sockets idx).data).nread = 0)
    (hsent : (r.data (r.sockets idx).data).nwritten = 0)
    (hpend : (r.data (r.sockets idx).data).write_buf = none)
    (hreads : w.reads = read_result.ok (bytes "QUIT\r\n") :: rs)
    (hwrites : w.writes = write_result.ok 16 :: ws) :
    ∃ r' w', process_event (fuel + 3) r w sock flags = some (1, r', w') ∧
      w'.log = w.log ++ [os_event.read sock 0 512 (read_result.ok (bytes "QUIT\r\n")),
        os_event.write sock (bytes "221 2.0.0 Bye.\r\n") 0 16 (write_result.ok 16)] ∧
      written_bytes sock w'.log = written_bytes sock w.log ++ bytes "221 2.0.0 Bye.\r\n" ∧
      w'.reads = rs ∧ w'.writes = ws ∧
      (r'.data (r'.sockets idx).data).state = state_t.FIN := by
  obtain ⟨x', e', w', hrun, hlog, hs, hr, hw⟩ := quit_closes fuel sock flags
    (r.data (r.sockets idx).data) (r.sockets idx) w rs ws hread hwrite hstate hempty hsent hpend
    hreads hwrites
  rw [(find_socket_some r sock idx hfind).2] at hlog
  refine ⟨{ r with data := Function.update r.data (r.sockets idx).data x' }, w', ?_, hlog, ?_,
    hr, hw, ?_⟩
  · simp [process_event, hfind, hrun]
  · rw [hlog, written_bytes_append]
    simp [written_bytes]
    decide
  · simpa using hs

/-- C6 on a registry whose only connection, descriptor 5, is in S1 with an empty
buffer. -/
theorem C6_noop_round_trip_witness :
    ∃ r' w', process_event (0 + 3) (registry_one (conn_S1 [])) world_noop 5 3 = some (0, r', w') ∧
      w'.log = world_noop.log ++ [os_event.read 5 0 512 (read_result.ok (bytes "NOOP\r\n")),
        os_event.write 5 (bytes "250 2.0.0 OK.\r\n") 0 15 (write_result.ok 15),
        os_event.read 5 0 512 read_result.eagain] ∧
      written_bytes 5 w'.log = written_bytes 5 world_noop.log ++ bytes "250 2.0.0 OK.\r\n" ∧
      (r'.data (r'.sockets 0).data).state = state_t.S1 ∧
      (r'.data (r'.sockets 0).data).nread = 0 :=
  C6_noop_round_trip 0 (registry_one (conn_S1 [])) world_noop 5 3 0 [] [] (by decide) (by decide)
    (by decide) (by decide) (by decide) (by decide) (by decide) (by decide) (by decide)
    (by decide)

/-- C7 on a registry whose only connection, descriptor 5, is in S1 with an empty
buffer. -/
theorem C7_quit_closes_witness :
    ∃ r' w', process_event (0 + 3) (registry_one (conn_S1 [])) world_quit 5 3 = some (1, r', w') ∧
      w'.log = world_quit.log ++ [os_event.read 5 0 512 (read_result.ok (bytes "QUIT\r\n")),
        os_event.write 5 (bytes "221 2.0.0 Bye.\r\n") 0 16 (write_result.ok 16)] ∧
      written_bytes 5 w'.log = written_bytes 5 world_quit.log ++ bytes "221 2.0.0 Bye.\r\n" ∧
      w'.reads = [] ∧ w'.writes = [] ∧
      (r'.data (r'.sockets 0).data).state = state_t.FIN :=
  C7_quit_closes 0 (registry_one (conn_S1 [])) world_quit 5 3 0 [] [] (by decide) (by decide)
    (by decide) (by decide) (by decide) (by decide) (by decide) (by decide) (by decide)

theorem find_socket_none (r : registry_t) (g : Int) :
    find_socket r g = none ↔ ∀ i, i < r.connections → (r.sockets i).sock ≠ g := by
  unfold find_socket
  rw [List.find?_eq_none]
  simp [List.mem_range]

theorem find_socket_of_distinct (r : registry_t) (hd : distinct_handles r) (i : Nat)
    (hi : i < r.connections) : find_socket r (r.sockets i).sock = some i := by
  cases hf : find_socket r (r.sockets i).sock with
  | none => exact absurd rfl ((find_socket_none r _).1 hf i hi)
  | some j =>
    obtain ⟨hj, hs⟩ := find_socket_some r _ j hf
    rw [hd j hj i hi hs]

theorem close_socket_absent (r : registry_t) (w : world_t) (h : Int) (msg : Option (List Nat))
    (hf : find_socket r h = none) : (close_socket r w h msg).1 = r := by
  simp [close_socket, hf]

theorem close_socket_present (r : registry_t) (w : world_t) (h : Int) (msg : Option (List Nat))
    (idx : Nat) (hf : find_socket r h = some idx) :
    (close_socket r w h msg).1 =
      { sockets := if idx ≠ r.connections - 1 then
          Function.update r.sockets idx { r.sockets (r.connections - 1) with data := idx }
          else r.sockets
        data := if idx ≠ r.connections - 1 then
          Function.update r.data idx (r.data (r.connections - 1)) else r.data
        connections := r.connections - 1 } := by
  simp only [close_socket, hf]
  split_ifs <;> rfl


theorem find_socket_eq_some (r : registry_t) (hd : distinct_handles r) (g : Int) (i : Nat)
    (hi : i < r.connections) (hs : (r.sockets i).sock = g) : find_socket r g = some i := by
  rw [← hs]; exact find_socket_of_distinct r hd i hi

/-- The entries of the registry after `close_socket` removed the entry at `idx`:
slot `idx` holds the former last entry, repointed, and the others are as before. -/
theorem close_socket_entries (r : registry_t) (w : world_t) (h : Int)
    (msg : Option (List Nat)) (idx : Nat) (hf : find_socket r h = some idx) :
    (close_socket r w h msg).1.connections = r.connections - 1 ∧
    ∀ j, j < r.connections - 1 →
      ((close_socket r w h msg).1.sockets j =
        if j = idx then { r.sockets (r.connections - 1) with data := idx } else r.sockets j) ∧
      ((close_socket r w h msg).1.data j =
        if j = idx then r.data (r.connections - 1) else r.data j) := by
  rw [close_socket_present r w h msg idx hf]
  refine ⟨rfl, ?_⟩
  intro j hj
  by_cases hlast : idx = r.connections - 1
  · have hne : j ≠ idx := by omega
    simp [hlast, hne, hlast ▸ hne]
  · by_cases hji : j = idx
    · subst hji; simp [hlast]
    · simp [hlast, hji, Function.update_noteq hji]

theorem close_socket_distinct (r : registry_t) (w : world_t) (h : Int)
    (msg : Option (List Nat)) (hd : distinct_handles r) :
    distinct_handles (close_socket r w h msg).1 := by
  cases hf : find_socket r h with
  | none => rw [close_socket_absent r w h msg hf]; exact hd
  | some idx =>
    obtain ⟨hidx, _⟩ := find_socket_some r h idx hf
    obtain ⟨hc, hent⟩ := close_socket_entries r w h msg idx hf
    intro i hi j hj hs
    rw [hc] at hi hj
    rw [(hent i hi).1, (hent j hj).1] at hs
    by_cases hii : i = idx <;> by_cases hji : j = idx
    · rw [hii, hji]
    · simp only [hii, hji, if_true, if_false] at hs
      have := hd (r.connections - 1) (by omega) j (by omega) hs
      omega
    · simp only [hii, hji, if_true, if_false] at hs
      have := hd i (by omega) (r.connections - 1) (by omega) hs
      omega
    · simp only [hii, hji, if_false] at hs
      exact hd i (by omega) j (by omega) hs

theorem close_socket_back_refs (r : registry_t) (w : world_t) (h : Int)
    (msg : Option (List Nat)) (hb : back_refs r) : back_refs (close_socket r w h msg).1 := by
  cases hf : find_socket r h with
  | none => rw [close_socket_absent r w h msg hf]; exact hb
  | some idx =>
    obtain ⟨hc, hent⟩ := close_socket_entries r w h msg idx hf
    intro i hi
    rw [hc] at hi
    rw [(hent i hi).1]
    by_cases hii : i = idx
    · simp [hii]
    · simp only [hii, if_false]; exact hb i (by omega)

/-- Removing `h` leaves every other handle with the same deadlines and protocol
state, and `h` itself absent. -/
theorem view_close_socket (r : registry_t) (w : world_t) (h : Int) (msg : Option (List Nat))
    (hd : distinct_handles r) (hb : back_refs r) (g : Int) :
    view (close_socket r w h msg).1 g = if g = h then none else view r g := by
  cases hf : find_socket r h with
  | none =>
    rw [close_socket_absent r w h msg hf]
    by_cases hg : g = h
    · simp [hg, view, hf]
    · simp [hg]
  | some idx =>
    obtain ⟨hidx, hsock⟩ := find_socket_some r h idx hf
    obtain ⟨hc, hent⟩ := close_socket_entries r w h msg idx hf
    have hd' := close_socket_distinct r w h msg hd
    by_cases hg : g = h
    · simp only [hg, if_true, view, Option.map_eq_none']
      rw [find_socket_none]
      intro j hj
      rw [hc] at hj
      rw [(hent j hj).1]
      by_cases hji : j = idx
      · simp only [hji, if_true]
        intro hs
        have := hd (r.connections - 1) (by omega) idx hidx (hs.trans hsock.symm)
        omega
      · simp only [hji, if_false]
        intro hs
        exact hji (hd j (by omega) idx hidx (hs.trans hsock.symm))
    · simp only [hg, if_false]
      cases hfg : find_socket r g with
      | none =>
        have hnone : find_socket (close_socket r w h msg).1 g = none := by
          rw [find_socket_none]
          intro j hj
          rw [hc] at hj
          rw [(hent j hj).1]
          have hall := (find_socket_none r g).1 hfg
          by_cases hji : j = idx
          · simp only [hji, if_true]; exact hall _ (by omega)
          · simp only [hji, if_false]; exact hall _ (by omega)
        simp [view, hfg, hnone]
      | some i =>
        obtain ⟨hi, hsi⟩ := find_socket_some r g i hfg
        have hiidx : i ≠ idx := by
          intro hx; rw [hx, hsock] at hsi; exact hg hsi.symm
        by_cases hlast : i = r.connections - 1
        · have hidx' : idx < r.connections - 1 := by omega
          have hfind' : find_socket (close_socket r w h msg).1 g = some idx := by
            apply find_socket_eq_some _ hd' g idx (by rw [hc]; exact hidx')
            rw [(hent idx hidx').1]; simp only [if_true]; rw [← hlast]; exact hsi
          simp only [view, hfg, hfind', Option.map_some', (hent idx hidx').1, (hent idx hidx').2,
            if_true, ← hlast, hb i hi]
        · have hi' : i < r.connections - 1 := by omega
          have hfind' : find_socket (close_socket r w h msg).1 g = some i := by
            apply find_socket_eq_some _ hd' g i (by rw [hc]; exact hi')
            rw [(hent i hi').1]; simp only [hiidx, if_false]; exact hsi
          simp only [view, hfg, hfind', Option.map_some', (hent i hi').1, hiidx, if_false,
            hb i hi, (hent i hi').2]


theorem closed_socks_append (l1 l2 : List os_event) :
    closed_socks (l1 ++ l2) = closed_socks l1 ++ closed_socks l2 := by
  induction l1 with
  | nil => simp [closed_socks]
  | cons ev l1 ih => cases ev <;> simp [closed_socks, ih]

theorem close_socket_closed (r : registry_t) (w : world_t) (h : Int) (msg : Option (List Nat)) :
    closed_socks (close_socket r w h msg).2.log = closed_socks w.log ++ [h] := by
  have hlog : (close_socket r w h msg).2.log =
      (match msg with
        | some m => (safe_write h m 0 m.length w).2
        | none => w).log ++ [os_event.epoll_del h, os_event.shutdown h, os_event.close h] := by
    simp only [close_socket]
    split <;> rfl
  rw [hlog, closed_socks_append]
  cases msg with
  | none => simp [closed_socks]
  | some m => simp [safe_write, closed_socks_append, closed_socks]

theorem sweep_loop_spec (now : Nat) : ∀ (k : Nat) (r : registry_t) (w : world_t),
    k ≤ r.connections → distinct_handles r → back_refs r →
    distinct_handles (sweep_loop now k r w).1 ∧ back_refs (sweep_loop now k r w).1 ∧
    (∀ g, ((∃ i, i < k ∧ (r.sockets i).sock = g ∧ expired now (r.sockets i) = true) →
            view (sweep_loop now k r w).1 g = none) ∧
          ((¬ ∃ i, i < k ∧ (r.sockets i).sock = g ∧ expired now (r.sockets i) = true) →
            view (sweep_loop now k r w).1 g = view r g)) ∧
    (sweep_loop now k r w).1.connections + ((List.range k).filter
        (fun i => expired now (r.sockets i))).length = r.connections ∧
    closed_socks (sweep_loop now k r w).2.log = closed_socks w.log ++
      ((List.range k).reverse.filter (fun i => expired now (r.sockets i))).map
        (fun i => (r.sockets i).sock) := by
  intro k
  induction k with
  | zero =>
    intro r w _ hd hb
    simp [sweep_loop, hd, hb]
  | succ k ih =>
    intro r w hk hd hb
    by_cases hex : expired now (r.sockets k) = true
    · have hcond : (r.sockets k).timeout ≤ now ∨ (r.sockets k).hard_timeout ≤ now := by
        simpa [expired] using hex
      have hstep : sweep_loop now (k + 1) r w =
          sweep_loop now k (close_socket r w (r.sockets k).sock (some err_timeout)).1
            (close_socket r w (r.sockets k).sock (some err_timeout)).2 := by
        simp only [sweep_loop, hcond, if_true]
      have hf := find_socket_of_distinct r hd k (by omega)
      obtain ⟨hc, hent⟩ := close_socket_entries r w (r.sockets k).sock (some err_timeout) k hf
      have hd1 := close_socket_distinct r w (r.sockets k).sock (some err_timeout) hd
      have hb1 := close_socket_back_refs r w (r.sockets k).sock (some err_timeout) hb
      have hv1 := view_close_socket r w (r.sockets k).sock (some err_timeout) hd hb
      have hcl1 := close_socket_closed r w (r.sockets k).sock (some err_timeout)
      generalize (close_socket r w (r.sockets k).sock (some err_timeout)).1 = r1 at *
      generalize (close_socket r w (r.sockets k).sock (some err_timeout)).2 = w1 at *
      have hsame : ∀ i, i < k → r1.sockets i = r.sockets i := by
        intro i hi
        rw [(hent i (by omega)).1]
        simp [show i ≠ k by omega]
      obtain ⟨hd', hb', hv', hcount', hclosed'⟩ := ih r1 w1 (by omega) hd1 hb1
      rw [hstep]
      have hfilter : ∀ (l : List Nat), (∀ i ∈ l, i < k) →
          l.filter (fun i => expired now (r1.sockets i)) =
            l.filter (fun i => expired now (r.sockets i)) := by
        intro l hl
        apply List.filter_congr
        intro i hi
        rw [hsame i (hl i hi)]
      refine ⟨hd', hb', ?_, ?_, ?_⟩
      · intro g
        constructor
        · rintro ⟨i, hi, hs, he⟩
          by_cases hik : i = k
          · subst hik
            by_cases hprev : ∃ i', i' < i ∧ (r1.sockets i').sock = g ∧
                expired now (r1.sockets i') = true
            · exact (hv' g).1 hprev
            · rw [(hv' g).2 hprev, hv1 g]; simp [hs]
          · apply (hv' g).1
            exact ⟨i, by omega, by rw [hsame i (by omega)]; exact hs,
              by rw [hsame i (by omega)]; exact he⟩
        · intro hno
          have hno' : ¬ ∃ i, i < k ∧ (r1.sockets i).sock = g ∧
              expired now (r1.sockets i) = true := by
            rintro ⟨i, hi, hs, he⟩
            exact hno ⟨i, by omega, by rw [← hsame i hi]; exact hs,
              by rw [← hsame i hi]; exact he⟩
          rw [(hv' g).2 hno', hv1 g]
          have hgk : g ≠ (r.sockets k).sock := fun hg => hno ⟨k, by omega, hg.symm, hex⟩
          simp [hgk]
      · rw [List.range_succ, List.filter_append, List.length_append,
          ← hfilter _ (fun i hi => List.mem_range.1 hi)]
        simp only [List.filter_cons, hex, if_true, List.filter_nil, List.length_singleton]
        omega
      · rw [hclosed', hcl1, List.range_succ, List.reverse_append, List.reverse_singleton,
          List.singleton_append, List.filter_cons, hfilter _ (fun i hi => by
            simpa using List.mem_reverse.1 hi)]
        simp [hex]
        intro a ha _
        rw [hsame a ha]
    · have hcond : ¬ ((r.sockets k).timeout ≤ now ∨ (r.sockets k).hard_timeout ≤ now) := by
        simpa [expired] using hex
      have hstep : sweep_loop now (k + 1) r w = sweep_loop now k r w := by
        simp only [sweep_loop, hcond, if_false]
      obtain ⟨hd', hb', hv', hcount', hclosed'⟩ := ih r w (by omega) hd hb
      rw [hstep]
      refine ⟨hd', hb', ?_, ?_, ?_⟩
      · intro g
        constructor
        · rintro ⟨i, hi, hs, he⟩
          by_cases hik : i = k
          · subst hik; exact absurd he hex
          · exact (hv' g).1 ⟨i, by omega, hs, he⟩
        · intro hno
          exact (hv' g).2 (fun ⟨i, hi, hs, he⟩ => hno ⟨i, by omega, hs, he⟩)
      · rw [List.range_succ, List.filter_append, List.length_append]
        simp only [List.filter_cons, hex, List.filter_nil, List.length_nil]
        simpa using hcount'
      · rw [hclosed', List.range_succ, List.reverse_append, List.reverse_singleton,
          List.singleton_append, List.filter_cons]
        simp [hex]


theorem view_eq_some (r : registry_t) (g : Int) (v : Nat × Nat × data_t) :
    view r g = some v ↔ ∃ j, find_socket r g = some j ∧
      ((r.sockets j).timeout, (r.sockets j).hard_timeout, r.data (r.sockets j).data) = v := by
  simp [view, Option.map_eq_some']

theorem view_eq_none (r : registry_t) (g : Int) : view r g = none ↔ find_socket r g = none := by
  simp [view]

/-- C9: in a registry with pairwise distinct live handles whose entries point
to their own data slots, `close_socket(h)` for a live `h` makes the count one
less and `find_socket(h)` fail, and every other live handle `g` is still found,
at an entry with handle `g`, the same soft and hard deadline and, through its
data pointer, the same protocol state as before; when `h` is not live the
registry is unchanged. -/
theorem C9_close_socket (r : registry_t) (w : world_t) (h : Int) (msg : Option (List Nat))
    (hd : distinct_handles r) (hb : back_refs r) :
    (∀ idx, find_socket r h = some idx →
      (close_socket r w h msg).1.connections + 1 = r.connections ∧
      find_socket (close_socket r w h msg).1 h = none ∧
      ∀ g i, g ≠ h → find_socket r g = some i →
        ∃ j, find_socket (close_socket r w h msg).1 g = some j ∧
          ((close_socket r w h msg).1.sockets j).sock = g ∧
          ((close_socket r w h msg).1.sockets j).timeout = (r.sockets i).timeout ∧
          ((close_socket r w h msg).1.sockets j).hard_timeout = (r.sockets i).hard_timeout ∧
          (close_socket r w h msg).1.data ((close_socket r w h msg).1.sockets j).data
            = r.data (r.sockets i).data) ∧
    (find_socket r h = none → (close_socket r w h msg).1 = r) := by
  have hv := view_close_socket r w h msg hd hb
  refine ⟨?_, close_socket_absent r w h msg⟩
  intro idx hf
  obtain ⟨hidx, _⟩ := find_socket_some r h idx hf
  refine ⟨?_, ?_, ?_⟩
  · rw [(close_socket_entries r w h msg idx hf).1]; omega
  · rw [← view_eq_none, hv h]; simp
  · intro g i hg hfg
    have hvg : view (close_socket r w h msg).1 g =
        some ((r.sockets i).timeout, (r.sockets i).hard_timeout, r.data (r.sockets i).data) := by
      rw [hv g]; simp [hg, view, hfg]
    obtain ⟨j, hj, hfields⟩ := (view_eq_some _ g _).1 hvg
    simp only [Prod.mk.injEq] at hfields
    exact ⟨j, hj, (find_socket_some _ g j hj).2, hfields.1, hfields.2.1, hfields.2.2⟩

/-- C8: in a registry with pairwise distinct live handles whose entries point
to their own data slots, after the timeout sweep at time `now` (the next clock
value) every connection with `timeout > now` and `hard_timeout > now` is still
found, with its handle, both deadlines and protocol state; every connection with
`timeout <= now` or `hard_timeout <= now` is gone and was closed exactly once; no
other handle is live, the live handles are distinct, the count dropped by the
number of expired entries, and the descriptors closed are those of the expired
entries, from the highest index down. -/
theorem C8_timeout_sweep (r : registry_t) (w : world_t) (hd : distinct_handles r) (hb : back_refs r) :
    (∀ i, i < r.connections →
      (w.clock.headD 0 < (r.sockets i).timeout ∧ w.clock.headD 0 < (r.sockets i).hard_timeout →
        ∃ j, find_socket (timeout_sweep r w).1 (r.sockets i).sock = some j ∧
          ((timeout_sweep r w).1.sockets j).sock = (r.sockets i).sock ∧
          ((timeout_sweep r w).1.sockets j).timeout = (r.sockets i).timeout ∧
          ((timeout_sweep r w).1.sockets j).hard_timeout = (r.sockets i).hard_timeout ∧
          (timeout_sweep r w).1.data ((timeout_sweep r w).1.sockets j).data
            = r.data (r.sockets i).data) ∧
      ((r.sockets i).timeout ≤ w.clock.headD 0 ∨ (r.sockets i).hard_timeout ≤ w.clock.headD 0 →
        find_socket (timeout_sweep r w).1 (r.sockets i).sock = none ∧
        (closed_socks (timeout_sweep r w).2.log).count (r.sockets i).sock
          = (closed_socks w.log).count (r.sockets i).sock + 1)) ∧
    (∀ g, find_socket r g = none → find_socket (timeout_sweep r w).1 g = none) ∧
    distinct_handles (timeout_sweep r w).1 ∧
    (timeout_sweep r w).1.connections + ((List.range r.connections).filter
      (fun i => expired (w.clock.headD 0) (r.sockets i))).length = r.connections ∧
    closed_socks (timeout_sweep r w).2.log = closed_socks w.log ++
      ((List.range r.connections).reverse.filter
        (fun i => expired (w.clock.headD 0) (r.sockets i))).map (fun i => (r.sockets i).sock) := by
  obtain ⟨hd', _, hv, hcount, hclosed⟩ := sweep_loop_spec (w.clock.headD 0) r.connections r
    { w with clock := w.clock.tail } (le_refl _) hd hb
  have hsweep : timeout_sweep r w =
      sweep_loop (w.clock.headD 0) r.connections r { w with clock := w.clock.tail } := rfl
  rw [hsweep]
  have hnodup : (((List.range r.connections).reverse.filter
      (fun i => expired (w.clock.headD 0) (r.sockets i))).map
        (fun i => (r.sockets i).sock)).Nodup := by
    apply List.Nodup.map_on
    · intro x hx y hy hxy
      have hx' : x < r.connections := by
        simpa using List.mem_reverse.1 (List.mem_of_mem_filter hx)
      have hy' : y < r.connections := by
        simpa using List.mem_reverse.1 (List.mem_of_mem_filter hy)
      exact hd x hx' y hy' hxy
    · exact (List.nodup_reverse.2 (List.nodup_range _)).filter _
  refine ⟨?_, ?_, hd', hcount, hclosed⟩
  · intro i hi
    constructor
    · rintro ⟨h1, h2⟩
      have hno : ¬ ∃ i', i' < r.connections ∧ (r.sockets i').sock = (r.sockets i).sock ∧
          expired (w.clock.headD 0) (r.sockets i') = true := by
        rintro ⟨i', hi', hs, he⟩
        rw [hd i' hi' i hi hs] at he
        simp only [expired, decide_eq_true_eq] at he
        omega
      have hvg := (hv (r.sockets i).sock).2 hno
      rw [show view r (r.sockets i).sock = some ((r.sockets i).timeout,
        (r.sockets i).hard_timeout, r.data (r.sockets i).data) by
          simp [view, find_socket_of_distinct r hd i hi]] at hvg
      obtain ⟨j, hj, hfields⟩ := (view_eq_some _ _ _).1 hvg
      simp only [Prod.mk.injEq] at hfields
      exact ⟨j, hj, (find_socket_some _ _ j hj).2, hfields.1, hfields.2.1, hfields.2.2⟩
    · intro hexp
      have hex : expired (w.clock.headD 0) (r.sockets i) = true := by
        simpa [expired] using hexp
      constructor
      · rw [← view_eq_none]
        exact (hv (r.sockets i).sock).1 ⟨i, hi, rfl, hex⟩
      · rw [hclosed, List.count_append]
        congr 1
        apply List.count_eq_one_of_mem hnodup
        apply List.mem_map.2
        exact ⟨i, List.mem_filter.2 ⟨List.mem_reverse.2 (List.mem_range.2 hi), hex⟩, rfl⟩
  · intro g hg
    rw [← view_eq_none]
    by_cases hcl : ∃ i, i < r.connections ∧ (r.sockets i).sock = g ∧
        expired (w.clock.headD 0) (r.sockets i) = true
    · exact (hv g).1 hcl
    · rw [(hv g).2 hcl, view_eq_none]; exact hg

/-- C9 on three connections 5, 6, 7, closing 5: the count drops to 2, 5 is no
longer found, and 7, moved into slot 0, keeps its deadlines and state. -/
theorem C9_close_socket_witness :
    (close_socket registry_three world_idle 5 none).1.connections + 1
      = registry_three.connections ∧
    find_socket (close_socket registry_three world_idle 5 none).1 5 = none ∧
    ∃ j, find_socket (close_socket registry_three world_idle 5 none).1 7 = some j ∧
      ((close_socket registry_three world_idle 5 none).1.sockets j).sock = 7 ∧
      ((close_socket registry_three world_idle 5 none).1.sockets j).timeout
        = (registry_three.sockets 2).timeout ∧
      ((close_socket registry_three world_idle 5 none).1.sockets j).hard_timeout
        = (registry_three.sockets 2).hard_timeout ∧
      (close_socket registry_three world_idle 5 none).1.data
          ((close_socket registry_three world_idle 5 none).1.sockets j).data
        = registry_three.data (registry_three.sockets 2).data :=
  have h := (C9_close_socket registry_three world_idle 5 none (by decide) (by decide)).1 0
    (by decide)
  ⟨h.1, h.2.1, h.2.2 7 2 (by decide) (by decide)⟩

/-- C8 on three connections with soft deadlines 400, 500, 600, swept at time
450: descriptor 5 is removed and closed once, descriptor 7 survives. -/
theorem C8_timeout_sweep_witness :
    (find_socket (timeout_sweep registry_three world_at_450).1 5 = none ∧
      (closed_socks (timeout_sweep registry_three world_at_450).2.log).count 5
        = (closed_socks world_at_450.log).count 5 + 1) ∧
    ∃ j, find_socket (timeout_sweep registry_three world_at_450).1 7 = some j ∧
      ((timeout_sweep registry_three world_at_450).1.sockets j).sock = 7 ∧
      ((timeout_sweep registry_three world_at_450).1.sockets j).timeout = 600 ∧
      ((timeout_sweep registry_three world_at_450).1.sockets j).hard_timeout = 1200 ∧
      (timeout_sweep registry_three world_at_450).1.data
          ((timeout_sweep registry_three world_at_450).1.sockets j).data
        = registry_three.data 2 :=
  have h := (C8_timeout_sweep registry_three world_at_450 (by decide) (by decide)).1
  ⟨(h 0 (by decide)).2 (by decide), (h 2 (by decide)).1 (by decide)⟩

theorem accept_socket_back_refs (r : registry_t) (w : world_t) (conn : Int)
    (nonblocking_ok epoll_ok : Bool) (hb : back_refs r) :
    back_refs (accept_socket r w conn nonblocking_ok epoll_ok).2.1 := by
  unfold accept_socket
  split_ifs with h1 h2 h3
  · exact hb
  · intro i hi
    simp only [time] at hi ⊢
    by_cases hic : i = r.connections
    · subst hic; simp
    · rw [Function.update_noteq hic]
      exact hb i (by omega)
  · exact hb
  · exact hb

/-- Every registry reachable by `accept_socket` and `close_socket` has each live
entry pointing to its own data slot. -/
theorem reachable_back_refs (r : registry_t) (h : reachable r) : back_refs r := by
  induction h with
  | init => intro i hi; exact absurd hi (Nat.not_lt_zero i)
  | accept r w conn nb ep _ ih => exact accept_socket_back_refs r w conn nb ep ih
  | close r w sock msg _ ih => exact close_socket_back_refs r w sock msg ih

theorem accept_socket_connections_le (r : registry_t) (w : world_t) (conn : Int)
    (nonblocking_ok epoll_ok : Bool) (h : r.connections ≤ BOUNCER_MAX_EVENTS - 1) :
    (accept_socket r w conn nonblocking_ok epoll_ok).2.1.connections ≤ BOUNCER_MAX_EVENTS - 1 := by
  unfold accept_socket
  split_ifs with h1 h2 h3
  · exact h
  · simp only [time]
    simp only [ge_iff_le, not_le] at h2
    omega
  · exact h
  · exact h

theorem close_socket_connections_le (r : registry_t) (w : world_t) (sock : Int)
    (msg : Option (List Nat)) : (close_socket r w sock msg).1.connections ≤ r.connections := by
  cases hf : find_socket r sock with
  | none => rw [close_socket_absent r w sock msg hf]
  | some idx => rw [(close_socket_entries r w sock msg idx hf).1]; omega

/-- C10: for a newly accepted transport `conn` that is made non-blocking and
registered with success, `accept_socket` admits it (returns it and raises the
count by one) exactly when the count is below `BOUNCER_MAX_EVENTS - 1`; at
`BOUNCER_MAX_EVENTS - 1` it returns -1, only shuts the transport down and closes
it (no write, no write outcome used) and leaves the whole registry as it was; and
in every registry reachable from the initial one by `accept_socket` and
`close_socket` the count is at most `BOUNCER_MAX_EVENTS - 1`. -/
theorem C10_accept_capacity (r : registry_t) (w : world_t) (conn : Int) (nonblocking_ok epoll_ok : Bool)
    (hconn : 0 ≤ conn) :
    (nonblocking_ok = true → epoll_ok = true →
      (((accept_socket r w conn nonblocking_ok epoll_ok).1 = conn ∧
          (accept_socket r w conn nonblocking_ok epoll_ok).2.1.connections = r.connections + 1)
        ↔ r.connections < BOUNCER_MAX_EVENTS - 1)) ∧
    (r.connections = BOUNCER_MAX_EVENTS - 1 →
      (accept_socket r w conn nonblocking_ok epoll_ok).1 = -1 ∧
      (accept_socket r w conn nonblocking_ok epoll_ok).2.1 = r ∧
      (accept_socket r w conn nonblocking_ok epoll_ok).2.2.log
        = w.log ++ [os_event.shutdown conn, os_event.close conn] ∧
      (accept_socket r w conn nonblocking_ok epoll_ok).2.2.writes = w.writes) ∧
    (∀ r', reachable r' → r'.connections ≤ BOUNCER_MAX_EVENTS - 1) := by
  refine ⟨?_, ?_, ?_⟩
  · intro hnb hep
    subst hnb; subst hep
    by_cases hfull : r.connections ≥ BOUNCER_MAX_EVENTS - 1
    · have hne : (-1 : Int) ≠ conn := by omega
      simp [accept_socket, hconn, hfull, hne]
    · simp only [accept_socket, ge_iff_le, hconn, hfull, time, if_true, if_false, Bool.and_self]
      simp only [ge_iff_le, not_le] at hfull
      simp [hfull]
  · intro hfull
    have hge : r.connections ≥ BOUNCER_MAX_EVENTS - 1 := by omega
    simp [accept_socket, hconn, hge]
  · intro r' hr
    induction hr with
    | init => exact Nat.zero_le _
    | accept r w conn nb ep _ ih => exact accept_socket_connections_le r w conn nb ep ih
    | close r w sock msg _ ih => exact le_trans (close_socket_connections_le r w sock msg) ih

/-- C10 at a registry holding 1023 connections: descriptor 2000 is turned away
and the registry is unchanged. -/
theorem C10_accept_capacity_witness :
    (accept_socket registry_full world_idle 2000 true true).1 = -1 ∧
    (accept_socket registry_full world_idle 2000 true true).2.1 = registry_full ∧
    (accept_socket registry_full world_idle 2000 true true).2.2.log
        = world_idle.log ++ [os_event.shutdown 2000, os_event.close 2000] ∧
    (accept_socket registry_full world_idle 2000 true true).2.2.writes = world_idle.writes :=
  (C10_accept_capacity registry_full world_idle 2000 true true (by decide)).2.1 (by decide)

/-- C11 (code bug, evaluated): a connection in S1 holds the complete line `NOOP`
CR LF when the read reports end-of-stream, or fails with another error; after
that pass of the loop the phase is S3, not ERR. In the whole invocation (two
`NOOP` lines in one read, then end-of-stream) the second reply is written after
the zero-length read and `process_event` returns keep-open in S1. -/
theorem C11_error_lost_to_buffered_line :
    (conn_S1 (bytes "NOOP\r\n")).state = state_t.S1 ∧
    (loop_body 5 1 (conn_S1 (bytes "NOOP\r\n")) entry_5 world_eof).2.1.state = state_t.S3 ∧
    (loop_body 5 1 (conn_S1 (bytes "NOOP\r\n")) entry_5 world_read_error).2.1.state
      = state_t.S3 ∧
    (process_event 10 (registry_one (conn_S1 [])) world_two_lines_then_eof 5 3).map
      (fun out => (out.1, out.2.2.log, (out.2.1.data 0).state)) =
    some (0, [os_event.read 5 0 512 (read_result.ok (bytes "NOOP\r\nNOOP\r\n")),
      os_event.write 5 str_noop 0 15 (write_result.ok 15),
      os_event.read 5 6 506 (read_result.ok []),
      os_event.write 5 str_noop 0 15 (write_result.ok 15),
      os_event.read 5 0 512 read_result.eagain], state_t.S1) := by
  decide

/-- A read that fills the buffer to 512 bytes without any LF: the connection
enters S4 and the buffered bytes are dropped. -/
theorem overflow_to_syntax_error (sock : Int) (flags : Nat) (x : data_t) (e : entry_t)
    (w : world_t) (d : List Nat) (rs : List read_result)
    (hflags : flags &&& BOUNCER_CAN_READ ≠ 0) (hstate : x.state = state_t.S1)
    (hd : d ≠ []) (hr : w.reads = read_result.ok d :: rs)
    (hfull : x.nread + d.length = 512) (hbuf : x.nread ≤ x.read_buf.length)
    (hno : 10 ∉ x.read_buf.take x.nread ++ d) :
    (loop_body sock flags x e w).2.1.state = state_t.S4 ∧
    (loop_body sock flags x e w).2.1.nread = 0 ∧
    (loop_body sock flags x e w).2.1.nwritten = x.nwritten ∧
    (loop_body sock flags x e w).2.1.write_buf = x.write_buf := by
  rw [loop_body_data_eq sock flags x e w d rs hflags hstate hd hr]
  have htake : (buf_write x.read_buf x.nread d).take (x.nread + d.length)
      = x.read_buf.take x.nread ++ d := by
    simp [buf_write, List.take_append_eq_append_take, List.length_take, Nat.min_eq_left hbuf]
  have hm : memchr (buf_write x.read_buf x.nread d) 10 (x.nread + d.length) = none := by
    rw [memchr_take, htake]
    exact memchr_none 10 _ hno _
  rw [hfull] at hm
  simp [parse_line, hm, hfull]

set_option maxRecDepth 100000 in
/-- C12 (code bug, evaluated): a connection is admitted, the transport takes the
greeting in two pieces (10 bytes, then 25), and a read delivers 512 bytes without
LF. The connection enters S4 with `nread` 0, but the write for the syntax-error
reply offers 25 bytes from offset 10 of the 25-byte reply: `nwritten` is still
10. -/
theorem C12_overflow_reply_starts_at_stale_offset :
    (process_event 10 (admitted world_long_line).1 (admitted world_long_line).2 5 3).map
      (fun out => (out.1, out.2.2.log, (out.2.1.data 0).state, (out.2.1.data 0).nread)) =
    some (0, [os_event.write 5 str_greeting 0 35 (write_result.ok 10),
      os_event.write 5 str_greeting 10 25 (write_result.ok 25),
      os_event.read 5 0 512 (read_result.ok (List.replicate 512 65)),
      os_event.write 5 ( err_syntax) 10 25 (write_result.ok 25),
      os_event.read 5 0 512 read_result.eagain], state_t.S1, 0) := by
  decide

/-- C13: when `accept_socket` admits `conn` (accepted, made non-blocking and
registered) at time `now`, the next clock value, with the count `c` below
`BOUNCER_MAX_EVENTS - 1`, it returns `conn`, the count becomes `c + 1`, the entry
at index `c` holds `conn`, points to `data[c]` and has soft deadline `now + 300`
and hard deadline `now + 900` (soft <= hard), `data[c]` is in S0 with `nread`,
`nwritten` and `towrite` 0 and no pending message, and every entry and state
below index `c` is unchanged. -/
theorem C13_admission (r : registry_t) (w : world_t) (conn : Int) (nonblocking_ok epoll_ok : Bool)
    (hconn : 0 ≤ conn) (hnb : nonblocking_ok = true) (hep : epoll_ok = true)
    (hc : r.connections < BOUNCER_MAX_EVENTS - 1) :
    (accept_socket r w conn nonblocking_ok epoll_ok).1 = conn ∧
    (accept_socket r w conn nonblocking_ok epoll_ok).2.1.connections = r.connections + 1 ∧
    (accept_socket r w conn nonblocking_ok epoll_ok).2.1.sockets r.connections =
      { sock := conn, data := r.connections, timeout := w.clock.headD 0 + 300,
        hard_timeout := w.clock.headD 0 + 900 } ∧
    ((accept_socket r w conn nonblocking_ok epoll_ok).2.1.sockets r.connections).timeout ≤
      ((accept_socket r w conn nonblocking_ok epoll_ok).2.1.sockets r.connections).hard_timeout ∧
    ((accept_socket r w conn nonblocking_ok epoll_ok).2.1.data r.connections).state
      = state_t.S0 ∧
    ((accept_socket r w conn nonblocking_ok epoll_ok).2.1.data r.connections).nread = 0 ∧
    ((accept_socket r w conn nonblocking_ok epoll_ok).2.1.data r.connections).nwritten = 0 ∧
    ((accept_socket r w conn nonblocking_ok epoll_ok).2.1.data r.connections).towrite = 0 ∧
    ((accept_socket r w conn nonblocking_ok epoll_ok).2.1.data r.connections).write_buf = none ∧
    ∀ i, i < r.connections →
      (accept_socket r w conn nonblocking_ok epoll_ok).2.1.sockets i = r.sockets i ∧
      (accept_socket r w conn nonblocking_ok epoll_ok).2.1.data i = r.data i := by
  subst hnb; subst hep
  have hnotfull : ¬ r.connections ≥ BOUNCER_MAX_EVENTS - 1 := by omega
  have hacc : accept_socket r w conn true true =
      (conn,
        { sockets := Function.update r.sockets r.connections
            { sock := conn, data := r.connections, timeout := w.clock.headD 0 + 300,
              hard_timeout := w.clock.headD 0 + 900 }
          data := Function.update r.data r.connections
            { r.data r.connections with state := state_t.S0, nread := 0, nwritten := 0,
                                        towrite := 0, write_buf := none }
          connections := r.connections + 1 }, { w with clock := w.clock.tail }) := by
    simp [accept_socket, hconn, hnotfull, time]
  rw [hacc]
  refine ⟨rfl, rfl, by simp, by simp, by simp, by simp, by simp, by simp, by simp, ?_⟩
  intro i hi
  have hne : i ≠ r.connections := by omega
  simp [Function.update_noteq hne]

/-- C13 for the first connection, descriptor 5, admitted at time 100. -/
theorem C13_admission_witness :
    (accept_socket registry_init world_greeting_at_200 5 true true).1 = 5 ∧
    (accept_socket registry_init world_greeting_at_200 5 true true).2.1.connections = 1 ∧
    (accept_socket registry_init world_greeting_at_200 5 true true).2.1.sockets 0 =
      { sock := 5, data := 0, timeout := 400, hard_timeout := 1000 } :=
  have h := C13_admission registry_init world_greeting_at_200 5 true true (by decide) rfl rfl (by decide)
  ⟨h.1, h.2.1, h.2.2.1⟩

/-- C17 (code bug, evaluated): the first write of the greeting fails, so the
connection is in ERR with the greeting still pending; the write made in ERR
offers the 35 bytes of the greeting again, not the 421 reply. And when a read
fails after the greeting went out in two pieces (10 bytes, then 25), the write
made in ERR offers 63 bytes from offset 10 of the 63-byte 421 reply. Both
invocations return close-now. -/
theorem C17_failed_write_offers_other_bytes :
    (process_event 10 (admitted world_greeting_fails).1 (admitted world_greeting_fails).2 5 2).map
      (fun out => (out.1, out.2.2.log, (out.2.1.data 0).state)) =
    some (1, [os_event.write 5 str_greeting 0 35 write_result.fail,
      os_event.write 5 str_greeting 0 35 (write_result.ok 35)], state_t.ERR) ∧
    (process_event 10 (admitted world_read_fails_after_greeting).1
      (admitted world_read_fails_after_greeting).2 5 3).map
      (fun out => (out.1, out.2.2.log, (out.2.1.data 0).state)) =
    some (1, [os_event.write 5 str_greeting 0 35 (write_result.ok 10),
      os_event.write 5 str_greeting 10 25 (write_result.ok 25),
      os_event.read 5 0 512 read_result.fail,
      os_event.write 5 err_unavail 10 63 (write_result.ok 63)], state_t.ERR) := by
  decide

/-- `do_write` returns 1 only on would-block, and then leaves the phase alone. -/
theorem do_write_blocked (x : data_t) (e : entry_t) (buf : List Nat) (len : Nat)
    (state : state_t) (w : world_t) (h : (do_write x e buf len state w).1 ≠ 0) :
    (do_write x e buf len state w).2.1.state = x.state := by
  unfold do_write at h ⊢
  simp only [time, safe_write] at h ⊢
  cases hres : w.writes.headD write_result.eagain with
  | ok k =>
    rw [hres] at h
    simp only at h
    split_ifs at h <;> simp at h
  | eagain => by_cases hp : x.write_buf.isNone <;> simp [hp]
  | fail =>
    rw [hres] at h
    simp at h

/-- The write made in ERR leaves the connection in ERR. -/
theorem do_write_in_ERR (x : data_t) (e : entry_t) (buf : List Nat) (len : Nat) (w : world_t)
    (h : x.state = state_t.ERR) :
    (do_write x e buf len state_t.ERR w).2.1.state = state_t.ERR := by
  unfold do_write
  simp only [time, safe_write]
  cases hres : w.writes.headD write_result.eagain with
  | ok k =>
    simp only
    split_ifs <;> simp [h]
  | eagain => by_cases hp : x.write_buf.isNone <;> simp [hp, h]
  | fail => simp

theorem case_send_result (flags : Nat) (buf : List Nat) (state : state_t) (x : data_t)
    (e : entry_t) (w : world_t) :
    (∀ v x' e' w', case_send flags buf state x e w ≠ (pass_t.ret v, x', e', w')) ∧
    (∀ x' e' w', case_send flags buf state x e w = (pass_t.next true, x', e', w') →
      x'.state = x.state) := by
  unfold case_send
  by_cases hw : flags &&& BOUNCER_CAN_WRITE = 0
  · simp only [hw, if_true]
    constructor
    · intro v x' e' w' h; simp at h
    · intro x' e' w' h
      simp only [Prod.mk.injEq] at h
      rw [← h.2.1]
  · simp only [hw, if_false]
    constructor
    · intro v x' e' w' h; simp at h
    · intro x' e' w' h
      simp only [Prod.mk.injEq, pass_t.next.injEq, decide_eq_true_eq] at h
      rw [← h.2.1]
      exact do_write_blocked x e buf buf.length state w h.1

/-- What a pass of the loop can yield: a `return 1` in FIN or ERR, `done` set in
one of S0..S5, or another pass. -/
theorem loop_body_result (sock : Int) (flags : Nat) (x : data_t) (e : entry_t) (w : world_t) :
    (∀ v x' e' w', loop_body sock flags x e w = (pass_t.ret v, x', e', w') →
      v = 1 ∧ (x'.state = state_t.FIN ∨ x'.state = state_t.ERR)) ∧
    (∀ x' e' w', loop_body sock flags x e w = (pass_t.next true, x', e', w') →
      x'.state ≠ state_t.FIN ∧ x'.state ≠ state_t.ERR) := by
  have hsend : ∀ (buf : List Nat) (state : state_t), x.state ≠ state_t.FIN →
      x.state ≠ state_t.ERR →
      (∀ v x' e' w', case_send flags buf state x e (time w).2 = (pass_t.ret v, x', e', w') →
        v = 1 ∧ (x'.state = state_t.FIN ∨ x'.state = state_t.ERR)) ∧
      (∀ x' e' w', case_send flags buf state x e (time w).2 = (pass_t.next true, x', e', w') →
        x'.state ≠ state_t.FIN ∧ x'.state ≠ state_t.ERR) := by
    intro buf state h1 h2
    obtain ⟨hr, hn⟩ := case_send_result flags buf state x e (time w).2
    exact ⟨fun v x' e' w' h => absurd h (hr v x' e' w'),
      fun x' e' w' h => by rw [hn x' e' w' h]; exact ⟨h1, h2⟩⟩
  cases hs : x.state with
  | S0 => simpa only [loop_body, hs] using hsend str_greeting state_t.S1 (by simp [hs]) (by simp [hs])
  | S2 => simpa only [loop_body, hs] using hsend str_quit state_t.FIN (by simp [hs]) (by simp [hs])
  | S3 => simpa only [loop_body, hs] using hsend str_noop state_t.S1 (by simp [hs]) (by simp [hs])
  | S4 => simpa only [loop_body, hs] using hsend ( err_syntax) state_t.S1 (by simp [hs]) (by simp [hs])
  | S5 => simpa only [loop_body, hs] using hsend str_bad_seq state_t.S1 (by simp [hs]) (by simp [hs])
  | FIN =>
    simp only [loop_body, hs]
    constructor
    · intro v x' e' w' h
      simp only [Prod.mk.injEq, pass_t.ret.injEq] at h
      exact ⟨h.1.symm, Or.inl (by rw [← h.2.1, hs])⟩
    · intro x' e' w' h; simp at h
  | ERR =>
    simp only [loop_body, hs]
    by_cases hw : flags &&& BOUNCER_CAN_WRITE ≠ 0
    · simp only [hw, ne_eq, not_false_eq_true, if_true]
      constructor
      · intro v x' e' w' h
        simp only [Prod.mk.injEq, pass_t.ret.injEq] at h
        exact ⟨h.1.symm, Or.inr (by rw [← h.2.1]; exact do_write_in_ERR x e _ _ _ hs)⟩
      · intro x' e' w' h; simp at h
    · simp only [hw, if_false]
      constructor
      · intro v x' e' w' h
        simp only [Prod.mk.injEq, pass_t.ret.injEq] at h
        exact ⟨h.1.symm, Or.inr (by rw [← h.2.1, hs])⟩
      · intro x' e' w' h; simp at h
  | S1 =>
    simp only [loop_body, hs, case_S1, time, safe_read]
    by_cases hr : flags &&& BOUNCER_CAN_READ ≠ 0
    · simp only [hr, ne_eq, not_false_eq_true, if_true]
      cases hres : w.reads.headD read_result.eagain with
      | ok d =>
        simp only
        split_ifs
        · constructor
          · intro v x' e' w' h; simp at h
          · intro x' e' w' h; simp at h
        · constructor
          · intro v x' e' w' h; simp at h
          · intro x' e' w' h; simp at h
      | fail =>
        constructor
        · intro v x' e' w' h; simp at h
        · intro x' e' w' h; simp at h
      | eagain =>
        constructor
        · intro v x' e' w' h; simp at h
        · intro x' e' w' h
          simp only [Prod.mk.injEq, pass_t.next.injEq, decide_eq_true_eq] at h
          have hp : parse_line x = x := by
            apply parse_line_no_line
            · rw [h.1]; cases x.read_buf <;> rfl
            · rw [h.1]; decide
          rw [← h.2.1, hp, hs]
          simp
    · simp only [hr, if_false]
      constructor
      · intro v x' e' w' h; simp at h
      · intro x' e' w' h
        simp only [Prod.mk.injEq] at h
        rw [← h.2.1, hs]
        simp


theorem process_event_loop_result (sock : Int) (flags : Nat) :
    ∀ (fuel : Nat) (x : data_t) (e : entry_t) (w : world_t) (v : Nat) (x' : data_t)
      (e' : entry_t) (w' : world_t),
      process_event_loop sock flags fuel x e w = some (v, x', e', w') →
      (v = 1 ∧ (x'.state = state_t.FIN ∨ x'.state = state_t.ERR)) ∨
      (v = 0 ∧ x'.state ≠ state_t.FIN ∧ x'.state ≠ state_t.ERR) := by
  intro fuel
  induction fuel with
  | zero => intro x e w v x' e' w' h; simp [process_event_loop] at h
  | succ fuel ih =>
    intro x e w v x' e' w' h
    obtain ⟨hret, hdone⟩ := loop_body_result sock flags x e w
    rw [process_event_loop] at h
    rcases hb : loop_body sock flags x e w with ⟨p, x1, e1, w1⟩
    rw [hb] at h
    cases p with
    | ret v1 =>
      simp only [Option.some.injEq, Prod.mk.injEq] at h
      obtain ⟨hv, hx, -, -⟩ := h
      subst hv; subst hx
      exact Or.inl (hret _ _ _ _ hb)
    | next done =>
      cases done with
      | true =>
        simp only [Option.some.injEq, Prod.mk.injEq] at h
        obtain ⟨hv, hx, -, -⟩ := h
        subst hv; subst hx
        exact Or.inr ⟨rfl, hdone _ _ _ hb⟩
      | false => exact ih x1 e1 w1 v x' e' w' h

/-- What `process_event` can touch: the protocol state its entry points to. -/
theorem process_event_frame (fuel : Nat) (r : registry_t) (w : world_t) (sock : Int)
    (flags idx : Nat) (out : Nat × registry_t × world_t)
    (hf : find_socket r sock = some idx)
    (h : process_event fuel r w sock flags = some out) :
    out.2.1.sockets = r.sockets ∧ out.2.1.connections = r.connections ∧
    (∀ j, j ≠ (r.sockets idx).data → out.2.1.data j = r.data j) ∧
    ∃ e' w0, process_event_loop sock flags fuel (r.data (r.sockets idx).data) (r.sockets idx) w
      = some (out.1, out.2.1.data (r.sockets idx).data, e', w0) ∧ out.2.2 = w0 := by
  simp only [process_event, hf] at h
  cases hl : process_event_loop sock flags fuel (r.data (r.sockets idx).data) (r.sockets idx) w with
  | none => rw [hl] at h; simp at h
  | some res =>
    obtain ⟨v, x', e', w'⟩ := res
    rw [hl] at h
    simp only [Option.some.injEq] at h
    subst h
    refine ⟨rfl, rfl, ?_, e', w', ?_, rfl⟩
    · intro j hj
      simp [Function.update_noteq hj]
    · simp

/-- C19: when `process_event` returns for a live connection, the result is 1 or
0; it is 1 (close-now) only with the connection in FIN or ERR on return and 0
(keep-open) only with it in one of S0..S5; for a handle that is not in the
registry it returns 1 with the registry and the world (no system call, no
outcome used) unchanged. -/
theorem C19_result_matches_phase (fuel : Nat) (r : registry_t) (w : world_t) (sock : Int) (flags : Nat) :
    (∀ idx out, find_socket r sock = some idx →
      process_event fuel r w sock flags = some out →
      (out.1 = 1 ∨ out.1 = 0) ∧
      (out.1 = 1 → (out.2.1.data (out.2.1.sockets idx).data).state = state_t.FIN ∨
        (out.2.1.data (out.2.1.sockets idx).data).state = state_t.ERR) ∧
      (out.1 = 0 → (out.2.1.data (out.2.1.sockets idx).data).state = state_t.S0 ∨
        (out.2.1.data (out.2.1.sockets idx).data).state = state_t.S1 ∨
        (out.2.1.data (out.2.1.sockets idx).data).state = state_t.S2 ∨
        (out.2.1.data (out.2.1.sockets idx).data).state = state_t.S3 ∨
        (out.2.1.data (out.2.1.sockets idx).data).state = state_t.S4 ∨
        (out.2.1.data (out.2.1.sockets idx).data).state = state_t.S5)) ∧
    (find_socket r sock = none → process_event fuel r w sock flags = some (1, r, w)) := by
  constructor
  · intro idx out hf h
    obtain ⟨hs, -, -, e', w0, hl, -⟩ := process_event_frame fuel r w sock flags idx out hf h
    rw [hs]
    rcases process_event_loop_result sock flags fuel _ _ _ _ _ _ _ hl with ⟨hv, hst⟩ | ⟨hv, h1, h2⟩
    · exact ⟨Or.inl hv, fun _ => hst, fun h0 => by omega⟩
    · refine ⟨Or.inr hv, fun h1' => by omega, fun _ => ?_⟩
      cases hst : (out.2.1.data (r.sockets idx).data).state <;> simp_all
  · intro hf
    simp [process_event, hf]

/-- C19 for the `NOOP` round trip on descriptor 5, which returns keep-open in
S1. -/
theorem C19_result_matches_phase_witness :
    (noop_outcome.1 = 1 ∨ noop_outcome.1 = 0) ∧
    (noop_outcome.1 = 1 → (noop_outcome.2.1.data (noop_outcome.2.1.sockets 0).data).state
        = state_t.FIN ∨
      (noop_outcome.2.1.data (noop_outcome.2.1.sockets 0).data).state = state_t.ERR) ∧
    (noop_outcome.1 = 0 → (noop_outcome.2.1.data (noop_outcome.2.1.sockets 0).data).state
        = state_t.S0 ∨
      (noop_outcome.2.1.data (noop_outcome.2.1.sockets 0).data).state = state_t.S1 ∨
      (noop_outcome.2.1.data (noop_outcome.2.1.sockets 0).data).state = state_t.S2 ∨
      (noop_outcome.2.1.data (noop_outcome.2.1.sockets 0).data).state = state_t.S3 ∨
      (noop_outcome.2.1.data (noop_outcome.2.1.sockets 0).data).state = state_t.S4 ∨
      (noop_outcome.2.1.data (noop_outcome.2.1.sockets 0).data).state = state_t.S5) :=
  (C19_result_matches_phase 3 (registry_one (conn_S1 [])) world_noop 5 3).1 0 noop_outcome (by decide) rfl

/-- C18: in a registry whose entries point to their own data slots, whenever
`process_event(h, flags)` returns, the connection count is unchanged, every
entry keeps its handle and hard deadline, every connection with a handle other
than `h` keeps its soft deadline and its protocol state, and the only thing that
can differ in the registry is the protocol state that the entry of `h` points
to (whatever the I/O outcomes, errors included); when `h` is not live the
registry is unchanged. -/
theorem C18_frame (fuel : Nat) (r : registry_t) (w : world_t) (h : Int) (flags : Nat)
    (out : Nat × registry_t × world_t) (hb : back_refs r)
    (hret : process_event fuel r w h flags = some out) :
    out.2.1.connections = r.connections ∧
    (∀ j, (out.2.1.sockets j).sock = (r.sockets j).sock ∧
      (out.2.1.sockets j).hard_timeout = (r.sockets j).hard_timeout) ∧
    (∀ j, j < r.connections → (r.sockets j).sock ≠ h →
      (out.2.1.sockets j).timeout = (r.sockets j).timeout ∧
      out.2.1.data (out.2.1.sockets j).data = r.data (r.sockets j).data) ∧
    (∀ idx, find_socket r h = some idx →
      out.2.1.sockets = r.sockets ∧ ∀ j, j ≠ (r.sockets idx).data → out.2.1.data j = r.data j) ∧
    (find_socket r h = none → out.2.1 = r) := by
  cases hf : find_socket r h with
  | none =>
    have hout : out = (1, r, w) := by
      simp only [process_event, hf, Option.some.injEq] at hret
      exact hret.symm
    subst hout
    simp
  | some idx =>
    obtain ⟨hs, hc, hdata, -⟩ := process_event_frame fuel r w h flags idx out hf hret
    obtain ⟨hidx, hsock⟩ := find_socket_some r h idx hf
    refine ⟨hc, fun j => by rw [hs]; exact ⟨rfl, rfl⟩, ?_, ?_, ?_⟩
    · intro j hj hne
      rw [hs]
      refine ⟨rfl, hdata _ ?_⟩
      rw [hb j hj, hb idx hidx]
      intro hji
      rw [hji] at hne
      exact hne hsock
    · intro idx' hidx'
      simp only [Option.some.injEq] at hidx'
      subst hidx'
      exact ⟨hs, hdata⟩
    · intro hnone; simp at hnone

/-- C18 for three connections 5, 6, 7 and an invocation on 5 that writes part of
the greeting: the count and connection 6 are as before. -/
theorem C18_frame_witness :
    three_outcome.2.1.connections = registry_three.connections ∧
    (three_outcome.2.1.sockets 1).timeout = (registry_three.sockets 1).timeout ∧
    three_outcome.2.1.data (three_outcome.2.1.sockets 1).data
      = registry_three.data (registry_three.sockets 1).data :=
  have h := C18_frame 5 registry_three world_noop 5 3 three_outcome (by decide) rfl
  ⟨h.1, h.2.2.1 1 (by decide) (by decide)⟩

/-- The registry result of `process_event` from the result of its loop. -/
theorem process_event_of_loop (fuel : Nat) (r : registry_t) (w : world_t) (sock : Int)
    (flags idx v : Nat) (x' : data_t) (e' : entry_t) (w' : world_t)
    (hf : find_socket r sock = some idx)
    (hl : process_event_loop sock flags fuel (r.data (r.sockets idx).data) (r.sockets idx) w
      = some (v, x', e', w')) :
    process_event fuel r w sock flags
      = some (v, { r with data := Function.update r.data (r.sockets idx).data x' }, w') := by
  simp [process_event, hf, hl]

/-- One invocation of `process_event` on a live handle, from the result of its
loop: the entry is found again afterwards and points to the state the loop left. -/
theorem process_event_step (fuel : Nat) (r : registry_t) (w : world_t) (sock : Int)
    (flags idx v : Nat) (x' : data_t) (e' : entry_t) (w' : world_t)
    (hf : find_socket r sock = some idx)
    (hl : process_event_loop sock flags fuel (r.data (r.sockets idx).data) (r.sockets idx) w
      = some (v, x', e', w')) :
    ∃ r', process_event fuel r w sock flags = some (v, r', w') ∧
      find_socket r' sock = some idx ∧ r'.sockets = r.sockets ∧
      r'.data (r'.sockets idx).data = x' :=
  ⟨_, process_event_of_loop fuel r w sock flags idx v x' e' w' hf hl, hf, rfl, by simp⟩

/-- A pass in S1 without read permission sets `done`. -/
theorem loop_body_no_read (sock : Int) (flags : Nat) (x : data_t) (e : entry_t) (w : world_t)
    (hread : flags &&& BOUNCER_CAN_READ = 0) (hstate : x.state = state_t.S1) :
    loop_body sock flags x e w = (pass_t.next true, x, e, { w with clock := w.clock.tail }) := by
  simp [loop_body, hstate, case_S1, time, hread]

/-- The greeting of a fresh connection, accepted in full: the invocation returns
keep-open in S1 after the one write (and, with read permitted, a read that would
block). -/
theorem greeting_sent (fuel : Nat) (sock : Int) (flags : Nat) (x : data_t) (e : entry_t)
    (w : world_t) (ws : List write_result)
    (hwrite : flags &&& BOUNCER_CAN_WRITE ≠ 0)
    (hstate : x.state = state_t.S0) (hempty : x.nread = 0) (hsent : x.nwritten = 0)
    (hpend : x.write_buf = none)
    (hnext : flags &&& BOUNCER_CAN_READ ≠ 0 → w.reads.headD read_result.eagain = read_result.eagain)
    (hwrites : w.writes = write_result.ok 35 :: ws) :
    ∃ x' e' w', process_event_loop sock flags (fuel + 2) x e w = some (0, x', e', w') ∧
      w'.log = w.log ++ os_event.write e.sock str_greeting 0 35 (write_result.ok 35) ::
        (if flags &&& BOUNCER_CAN_READ ≠ 0 then [os_event.read sock 0 512 read_result.eagain]
          else []) ∧
      w'.reads = (if flags &&& BOUNCER_CAN_READ ≠ 0 then w.reads.tail else w.reads) ∧
      w'.writes = ws ∧
      x'.state = state_t.S1 ∧ x'.nread = 0 ∧ x'.nwritten = 0 ∧ x'.write_buf = none := by
  obtain ⟨x1, e1, w1, hb1, hs1, hn1, hnw1, hp1, -, -, -, hr1, hw1, hl1⟩ :=
    case_send_full flags str_greeting state_t.S1 x e (time w).2 ws hwrite hpend hwrites
  have hb1' : loop_body sock flags x e w = (pass_t.next false, x1, e1, w1) := by
    simp only [loop_body, hstate]; exact hb1
  rw [show fuel + 2 = (fuel + 1) + 1 from rfl, loop_next sock flags _ _ _ _ _ _ _ hb1']
  by_cases hread : flags &&& BOUNCER_CAN_READ ≠ 0
  · have hb2 := loop_body_idle sock flags x1 e1 w1 hread hs1 (hn1.trans hempty)
      (by rw [hr1]; exact hnext hread)
    refine ⟨x1, e1, _, loop_done sock flags fuel _ _ _ _ _ _ hb2, ?_, ?_, hw1, hs1,
      hn1.trans hempty, hnw1.trans hsent, hp1⟩
    · simp only [hl1, hsent, time, hread, ne_eq, not_false_eq_true, if_true, List.append_assoc,
        List.singleton_append]
      rfl
    · simp only [hr1, time, hread, ne_eq, not_false_eq_true, if_true]
  · have hread0 : flags &&& BOUNCER_CAN_READ = 0 := by simpa using hread
    have hb2 := loop_body_no_read sock flags x1 e1 w1 hread0 hs1
    refine ⟨x1, e1, _, loop_done sock flags fuel _ _ _ _ _ _ hb2, ?_, ?_, hw1, hs1,
      hn1.trans hempty, hnw1.trans hsent, hp1⟩
    · simp only [hl1, hsent, time, hread, if_false, List.append_assoc, List.singleton_append]
      rfl
    · simp only [hr1, time, hread, if_false]

/-- The `NOOP` round trip with the whole state of the connection on return. -/
theorem noop_round_trip_state (fuel : Nat) (sock : Int) (flags : Nat) (x : data_t) (e : entry_t)
    (w : world_t) (rs : List read_result) (ws : List write_result)
    (hread : flags &&& BOUNCER_CAN_READ ≠ 0) (hwrite : flags &&& BOUNCER_CAN_WRITE ≠ 0)
    (hstate : x.state = state_t.S1) (hempty : x.nread = 0) (hsent : x.nwritten = 0)
    (hpend : x.write_buf = none)
    (hreads : w.reads = read_result.ok (bytes "NOOP\r\n") :: rs)
    (hnext : rs.headD read_result.eagain = read_result.eagain)
    (hwrites : w.writes = write_result.ok 15 :: ws) :
    ∃ x' e' w', process_event_loop sock flags (fuel + 3) x e w = some (0, x', e', w') ∧
      w'.log = w.log ++ [os_event.read sock 0 512 (read_result.ok (bytes "NOOP\r\n")),
        os_event.write e.sock str_noop 0 15 (write_result.ok 15),
        os_event.read sock 0 512 read_result.eagain] ∧
      w'.reads = rs.tail ∧ w'.writes = ws ∧
      x'.state = state_t.S1 ∧ x'.nread = 0 ∧ x'.nwritten = 0 ∧ x'.write_buf = none := by
  obtain ⟨x1, e1, w1, hb1, hs1, hn1, hnw1, -, hp1, hsock1, hr1, hw1, hl1⟩ :=
    loop_body_whole_line sock flags x e w (bytes "NOOP\r") rs hread hstate hempty
      (by decide) hreads
  have hcl : classify (command_word (bytes "NOOP\r")) = state_t.S3 := by decide
  rw [hcl] at hs1
  obtain ⟨x2, e2, w2, hb2, hs2, hn2, hnw2, hp2, -, -, -, hr2, hw2, hl2⟩ :=
    case_send_full flags str_noop state_t.S1 x1 e1 (time w1).2 ws hwrite (hp1.trans hpend)
      (hw1.trans hwrites)
  have hb2' : loop_body sock flags x1 e1 w1 = (pass_t.next false, x2, e2, w2) := by
    simp only [loop_body, hs1]; exact hb2
  have hb3 := loop_body_idle sock flags x2 e2 w2 hread hs2 (hn2.trans hn1)
    (by rw [hr2]; simp only [time]; rw [hr1]; exact hnext)
  refine ⟨x2, e2, { w2 with reads := w2.reads.tail, clock := w2.clock.tail,
                            log := w2.log ++ [os_event.read sock 0 512 read_result.eagain] },
    ?_, ?_, ?_, ?_, hs2, hn2.trans hn1, (hnw2.trans hnw1).trans hsent, hp2⟩
  · rw [show fuel + 3 = (fuel + 2) + 1 from rfl, loop_next sock flags _ _ _ _ _ _ _ hb1,
      show fuel + 2 = (fuel + 1) + 1 from rfl, loop_next sock flags _ _ _ _ _ _ _ hb2']
    exact loop_done sock flags fuel _ _ _ _ _ _ hb3
  · simp only [hl2, time, hl1, hnw1, hsent, hsock1, List.append_assoc, List.singleton_append]
    rfl
  · simp only [hr2, time, hr1]
  · simp only [hw2]


/-- C14: a connection is fresh (S0, empty buffer, zero bytes sent, nothing
pending) and every write is accepted in full. Three invocations of
`process_event` (the first with write permitted and any read in it reporting
would-block, the second with a read delivering `NOOP` CR LF and then
would-block, the third with a read delivering `QUIT` CR LF) return keep-open,
keep-open and close-now, and the writes they make are, in this order and with
nothing else, the greeting `554 5.3.2 HELLO FROM THE BOUNCER!` CR LF, `250 2.0.0
OK.` CR LF and `221 2.0.0 Bye.` CR LF, each offered from offset 0 and accepted
whole. -/
theorem C14_session (fuel : Nat) (r : registry_t) (w : world_t) (sock : Int)
    (flags1 flags2 flags3 idx : Nat) (rs : List read_result) (ws : List write_result)
    (hfind : find_socket r sock = some idx)
    (hstate : (r.data (r.sockets idx).data).state = state_t.S0)
    (hempty : (r.data (r.sockets idx).data).nread = 0)
    (hsent : (r.data (r.sockets idx).data).nwritten = 0)
    (hpend : (r.data (r.sockets idx).data).write_buf = none)
    (hwrite1 : flags1 &&& BOUNCER_CAN_WRITE ≠ 0)
    (hread2 : flags2 &&& BOUNCER_CAN_READ ≠ 0) (hwrite2 : flags2 &&& BOUNCER_CAN_WRITE ≠ 0)
    (hread3 : flags3 &&& BOUNCER_CAN_READ ≠ 0) (hwrite3 : flags3 &&& BOUNCER_CAN_WRITE ≠ 0)
    (hreads : w.reads =
      (if flags1 &&& BOUNCER_CAN_READ ≠ 0 then [read_result.eagain] else []) ++
        read_result.ok (bytes "NOOP\r\n") :: read_result.eagain ::
        read_result.ok (bytes "QUIT\r\n") :: rs)
    (hwrites : w.writes = write_result.ok 35 :: write_result.ok 15 :: write_result.ok 16 :: ws) :
    ∃ r1 w1 r2 w2 r3 w3,
      process_event (fuel + 2) r w sock flags1 = some (0, r1, w1) ∧
      process_event (fuel + 3) r1 w1 sock flags2 = some (0, r2, w2) ∧
      process_event (fuel + 3) r2 w2 sock flags3 = some (1, r3, w3) ∧
      w1.log = w.log ++
        os_event.write sock (bytes "554 5.3.2 HELLO FROM THE BOUNCER!\r\n") 0 35
          (write_result.ok 35) ::
        (if flags1 &&& BOUNCER_CAN_READ ≠ 0 then [os_event.read sock 0 512 read_result.eagain]
          else []) ∧
      w2.log = w1.log ++ [os_event.read sock 0 512 (read_result.ok (bytes "NOOP\r\n")),
        os_event.write sock (bytes "250 2.0.0 OK.\r\n") 0 15 (write_result.ok 15),
        os_event.read sock 0 512 read_result.eagain] ∧
      w3.log = w2.log ++ [os_event.read sock 0 512 (read_result.ok (bytes "QUIT\r\n")),
        os_event.write sock (bytes "221 2.0.0 Bye.\r\n") 0 16 (write_result.ok 16)] ∧
      written_bytes sock w3.log = written_bytes sock w.log ++
        (bytes "554 5.3.2 HELLO FROM THE BOUNCER!\r\n" ++ bytes "250 2.0.0 OK.\r\n" ++
          bytes "221 2.0.0 Bye.\r\n") := by
  obtain ⟨-, hsock⟩ := find_socket_some r sock idx hfind
  -- the greeting
  obtain ⟨x1, e1, w1, hrun1, hl1, hr1, hw1, hs1, hn1, hnw1, hp1⟩ :=
    greeting_sent fuel sock flags1 (r.data (r.sockets idx).data) (r.sockets idx) w
      (write_result.ok 15 :: write_result.ok 16 :: ws) hwrite1 hstate hempty hsent hpend
      (by intro hread; rw [hreads]; simp [hread]) hwrites
  have hr1' : w1.reads = read_result.ok (bytes "NOOP\r\n") :: read_result.eagain ::
      read_result.ok (bytes "QUIT\r\n") :: rs := by
    rw [hr1, hreads]
    by_cases hread : flags1 &&& BOUNCER_CAN_READ ≠ 0 <;> simp [hread]
  obtain ⟨r1, hp1', hfind1, hsk1, hd1⟩ :=
    process_event_step (fuel + 2) r w sock flags1 idx 0 x1 e1 w1 hfind hrun1
  -- NOOP
  obtain ⟨x2, e2, w2, hrun2, hl2, hr2, hw2, hs2, hn2, hnw2, hp2⟩ :=
    noop_round_trip_state fuel sock flags2 x1 (r.sockets idx) w1
      (read_result.eagain :: read_result.ok (bytes "QUIT\r\n") :: rs)
      (write_result.ok 16 :: ws) hread2 hwrite2 hs1 hn1 hnw1 hp1 hr1' rfl hw1
  obtain ⟨r2, hp2', hfind2, hsk2, hd2⟩ :=
    process_event_step (fuel + 3) r1 w1 sock flags2 idx 0 x2 e2 w2 hfind1
      (by rw [hd1, hsk1]; exact hrun2)
  -- QUIT
  obtain ⟨x3, e3, w3, hrun3, hl3, -, -, -⟩ :=
    quit_closes fuel sock flags3 x2 (r.sockets idx) w2 rs ws hread3 hwrite3 hs2 hn2 hnw2 hp2
      (by rw [hr2]; rfl) hw2
  obtain ⟨r3, hp3', -, -, -⟩ :=
    process_event_step (fuel + 3) r2 w2 sock flags3 idx 1 x3 e3 w3 hfind2
      (by rw [hd2, hsk2, hsk1]; exact hrun3)
  rw [hsock] at hl1 hl2 hl3
  refine ⟨r1, w1, r2, w2, r3, w3, hp1', hp2', hp3', hl1, hl2, hl3, ?_⟩
  rw [hl3, hl2, hl1]
  simp only [written_bytes_append]
  by_cases hread : flags1 &&& BOUNCER_CAN_READ ≠ 0
  · simp [hread, written_bytes]
    decide
  · simp [hread, written_bytes]
    decide

/-- C14 on descriptor 5, freshly admitted, with invocations for flags 2, 3, 3. -/
theorem C14_session_witness :
    ∃ r1 w1 r2 w2 r3 w3,
      process_event (0 + 2) (admitted world_session).1 (admitted world_session).2 5 2
        = some (0, r1, w1) ∧
      process_event (0 + 3) r1 w1 5 3 = some (0, r2, w2) ∧
      process_event (0 + 3) r2 w2 5 3 = some (1, r3, w3) ∧
      w1.log = (admitted world_session).2.log ++
        os_event.write 5 (bytes "554 5.3.2 HELLO FROM THE BOUNCER!\r\n") 0 35
          (write_result.ok 35) ::
        (if 2 &&& BOUNCER_CAN_READ ≠ 0 then [os_event.read 5 0 512 read_result.eagain]
          else []) ∧
      w2.log = w1.log ++ [os_event.read 5 0 512 (read_result.ok (bytes "NOOP\r\n")),
        os_event.write 5 (bytes "250 2.0.0 OK.\r\n") 0 15 (write_result.ok 15),
        os_event.read 5 0 512 read_result.eagain] ∧
      w3.log = w2.log ++ [os_event.read 5 0 512 (read_result.ok (bytes "QUIT\r\n")),
        os_event.write 5 (bytes "221 2.0.0 Bye.\r\n") 0 16 (write_result.ok 16)] ∧
      written_bytes 5 w3.log = written_bytes 5 (admitted world_session).2.log ++
        (bytes "554 5.3.2 HELLO FROM THE BOUNCER!\r\n" ++ bytes "250 2.0.0 OK.\r\n" ++
          bytes "221 2.0.0 Bye.\r\n") :=
  C14_session 0 (admitted world_session).1 (admitted world_session).2 5 2 3 3 0 [] []
    (by decide) (by decide) (by decide) (by decide) (by decide) (by decide) (by decide)
    (by decide) (by decide) (by decide) (by decide) (by decide)

theorem token_bytes_length (l : List Nat) : (token_bytes l).length = l.length := by
  induction l with
  | nil => rfl
  | cons b l ih => simp only [token_bytes]; split_ifs <;> simp [ih]

/-- Consuming the first line of the buffer leaves the bytes after its LF at the
front of the buffer, unmodified. -/
theorem parse_line_shift (x : data_t) (line rest junk : List Nat) (h10 : 10 ∉ line)
    (hb : x.read_buf = line ++ 10 :: (rest ++ junk))
    (hn : x.nread = line.length + 1 + rest.length) :
    (parse_line x).state = classify (command_word line) ∧
    (parse_line x).nread = rest.length ∧
    (parse_line x).nwritten = x.nwritten ∧ (parse_line x).write_buf = x.write_buf ∧
    (parse_line x).read_buf.take (parse_line x).nread = rest ∧
    ∃ junk', (parse_line x).read_buf = rest ++ junk' := by
  rw [parse_line_of_line x line (rest ++ junk) hb (by omega) h10]
  have hcopy : memcpy_front (token_bytes line ++ 0 :: (rest ++ junk)) (line.length + 1)
      (x.nread - (line.length + 1)) =
      rest ++ (token_bytes line ++ 0 :: (rest ++ junk)).drop rest.length := by
    have hsub : x.nread - (line.length + 1) = rest.length := by omega
    have hdrop : (token_bytes line ++ 0 :: (rest ++ junk)).drop (line.length + 1)
        = rest ++ junk := by
      rw [show token_bytes line ++ 0 :: (rest ++ junk)
        = (token_bytes line ++ [0]) ++ (rest ++ junk) by simp]
      apply List.drop_left'
      simp [token_bytes_length]
    rw [hsub]
    unfold memcpy_front buf_write
    rw [hdrop]
    simp
  refine ⟨rfl, by simp only; omega, rfl, rfl, ?_, ?_⟩
  · simp only [hcopy]
    rw [show x.nread - (line.length + 1) = rest.length by omega]
    simp
  · exact ⟨_, hcopy⟩

/-- The arm of a reply state is `do_write` of its reply. -/
theorem loop_body_reply (sock : Int) (flags : Nat) (x : data_t) (e : entry_t) (w : world_t)
    (h : x.state = state_t.S0 ∨ x.state = state_t.S2 ∨ x.state = state_t.S3 ∨
      x.state = state_t.S4 ∨ x.state = state_t.S5) :
    loop_body sock flags x e w
      = case_send flags (reply_of x.state) (next_of x.state) x e (time w).2 := by
  rcases h with h | h | h | h | h <;> simp only [loop_body, h, reply_of, next_of]

theorem classify_reply_state (token : List Nat) :
    classify token = state_t.S2 ∨ classify token = state_t.S3 ∨ classify token = state_t.S4 ∨
      classify token = state_t.S5 := by
  unfold classify
  split_ifs <;> simp

/-- A pass in S1 whose read would block parses what is buffered. -/
theorem loop_body_eagain (sock : Int) (flags : Nat) (x : data_t) (e : entry_t) (w : world_t)
    (hread : flags &&& BOUNCER_CAN_READ ≠ 0) (hstate : x.state = state_t.S1)
    (hr : w.reads.headD read_result.eagain = read_result.eagain) :
    loop_body sock flags x e w =
      (pass_t.next (decide (x.nread = 0)), parse_line x, e,
        { w with reads := w.reads.tail, clock := w.clock.tail,
                 log := w.log ++
                   [os_event.read sock x.nread (512 - x.nread) read_result.eagain] }) := by
  simp only [loop_body, hstate, case_S1, time, safe_read, hread, ne_eq, not_false_eq_true,
    if_true, hr]


/-- The pass in S1 whose read delivers `d`, with what it leaves in the entry and
the world. -/
theorem loop_body_data_log (sock : Int) (flags : Nat) (x : data_t) (e : entry_t) (w : world_t)
    (d : List Nat) (rs : List read_result)
    (hflags : flags &&& BOUNCER_CAN_READ ≠ 0) (hstate : x.state = state_t.S1)
    (hd : d ≠ []) (hr : w.reads = read_result.ok d :: rs) :
    ∃ e1 w1, loop_body sock flags x e w =
        (pass_t.next false,
          parse_line { x with read_buf := buf_write x.read_buf x.nread d,
                              nread := x.nread + d.length }, e1, w1) ∧
      e1.sock = e.sock ∧ w1.reads = rs ∧ w1.writes = w.writes ∧
      w1.log = w.log ++ [os_event.read sock x.nread (512 - x.nread) (read_result.ok d)] :=
  ⟨_, _, loop_body_data_eq sock flags x e w d rs hflags hstate hd hr, rfl, rfl, rfl, rfl⟩

/-- The pass in S1 over buffered bytes whose read would block, with what it
leaves in the world. -/
theorem loop_body_eagain_log (sock : Int) (flags : Nat) (x : data_t) (e : entry_t) (w : world_t)
    (hread : flags &&& BOUNCER_CAN_READ ≠ 0) (hstate : x.state = state_t.S1)
    (hnz : x.nread ≠ 0)
    (hr : w.reads.headD read_result.eagain = read_result.eagain) :
    ∃ w1, loop_body sock flags x e w = (pass_t.next false, parse_line x, e, w1) ∧
      w1.reads = w.reads.tail ∧ w1.writes = w.writes ∧
      w1.log = w.log ++ [os_event.read sock x.nread (512 - x.nread) read_result.eagain] := by
  refine ⟨{ w with reads := w.reads.tail, clock := w.clock.tail,
                    log := w.log ++
                      [os_event.read sock x.nread (512 - x.nread) read_result.eagain] },
    ?_, rfl, rfl, rfl⟩
  rw [loop_body_eagain sock flags x e w hread hstate hr]
  simp [hnz]

/-- The pass of a reply state with write permitted, nothing pending and the
whole reply accepted. -/
theorem loop_body_reply_full (sock : Int) (flags : Nat) (x : data_t) (e : entry_t) (w : world_t)
    (ws : List write_result)
    (h : x.state = state_t.S0 ∨ x.state = state_t.S2 ∨ x.state = state_t.S3 ∨
      x.state = state_t.S4 ∨ x.state = state_t.S5)
    (hwrite : flags &&& BOUNCER_CAN_WRITE ≠ 0) (hpend : x.write_buf = none)
    (hw : w.writes = write_result.ok (reply_of x.state).length :: ws) :
    ∃ x2 e2 w2, loop_body sock flags x e w = (pass_t.next false, x2, e2, w2) ∧
      x2.state = next_of x.state ∧ x2.nread = x.nread ∧ x2.nwritten = x.nwritten ∧
      x2.write_buf = none ∧ x2.read_buf = x.read_buf ∧ e2.sock = e.sock ∧
      w2.reads = w.reads ∧ w2.writes = ws ∧
      w2.log = w.log ++ [os_event.write e.sock (reply_of x.state) x.nwritten
        (reply_of x.state).length (write_result.ok (reply_of x.state).length)] := by
  obtain ⟨x2, e2, w2, hb, hs, hn, hnw, hp, -, hbuf, hsock, hr, hws, hl⟩ :=
    case_send_full flags (reply_of x.state) (next_of x.state) x e (time w).2 ws hwrite hpend
      (by simp only [time]; exact hw)
  refine ⟨x2, e2, w2, ?_, hs, hn, hnw, hp, hbuf, hsock, ?_, hws, ?_⟩
  · rw [loop_body_reply sock flags x e w h]; exact hb
  · rw [hr]; simp only [time]
  · rw [hl]; simp only [time]

/-- C16 (as amended): a connection in S1 with an empty read buffer, zero bytes
sent and nothing pending is invoked with read and write permitted; one read
delivers two complete lines (and maybe more bytes), the first line is not QUIT,
the next read would block and the replies are accepted in full. After the pass
that consumes the first line the later bytes are at the front of the read
buffer, unmodified; and the same invocation goes on, within its next three
passes, to answer the second line as well: it writes the reply to the first line
and then the reply to the second, one reply per buffered line. -/
theorem C16_pipelined_lines (fuel : Nat) (sock : Int) (flags : Nat) (x : data_t) (e : entry_t) (w : world_t)
    (l1 l2 more : List Nat) (rs : List read_result) (ws : List write_result)
    (hread : flags &&& BOUNCER_CAN_READ ≠ 0) (hwrite : flags &&& BOUNCER_CAN_WRITE ≠ 0)
    (hstate : x.state = state_t.S1) (hempty : x.nread = 0) (hsent : x.nwritten = 0)
    (hpend : x.write_buf = none)
    (h1 : 10 ∉ l1) (h2 : 10 ∉ l2)
    (hnotquit : classify (command_word l1) ≠ state_t.S2)
    (hreads : w.reads = read_result.ok (l1 ++ 10 :: (l2 ++ 10 :: more)) :: rs)
    (hnext : rs.headD read_result.eagain = read_result.eagain)
    (hwrites : w.writes =
      write_result.ok (reply_of (classify (command_word l1))).length ::
      write_result.ok (reply_of (classify (command_word l2))).length :: ws) :
    (loop_body sock flags x e w).2.1.state = classify (command_word l1) ∧
    (loop_body sock flags x e w).2.1.read_buf.take (loop_body sock flags x e w).2.1.nread
      = l2 ++ 10 :: more ∧
    ∃ x4 e4 w4,
      process_event_loop sock flags (fuel + 4) x e w = process_event_loop sock flags fuel x4 e4 w4 ∧
      w4.log = w.log ++
        [os_event.read sock 0 512 (read_result.ok (l1 ++ 10 :: (l2 ++ 10 :: more))),
         os_event.write e.sock (reply_of (classify (command_word l1))) 0
           (reply_of (classify (command_word l1))).length
           (write_result.ok (reply_of (classify (command_word l1))).length),
         os_event.read sock (l2.length + 1 + more.length) (512 - (l2.length + 1 + more.length))
           read_result.eagain,
         os_event.write e.sock (reply_of (classify (command_word l2))) 0
           (reply_of (classify (command_word l2))).length
           (write_result.ok (reply_of (classify (command_word l2))).length)] ∧
      x4.state = next_of (classify (command_word l2)) ∧
      x4.read_buf.take x4.nread = more ∧
      w4.reads = rs.tail ∧ w4.writes = ws := by
  -- pass 1: the read and the first line
  obtain ⟨e1, w1, hb1, hsock1, hr1, hw1, hl1⟩ := loop_body_data_log sock flags x e w
    (l1 ++ 10 :: (l2 ++ 10 :: more)) rs hread hstate (by simp) hreads
  obtain ⟨hs1, hn1, hnw1, hp1, htake1, junk1, hbuf1⟩ := parse_line_shift
    { x with read_buf := buf_write x.read_buf x.nread (l1 ++ 10 :: (l2 ++ 10 :: more)),
             nread := x.nread + (l1 ++ 10 :: (l2 ++ 10 :: more)).length }
    l1 (l2 ++ 10 :: more) (x.read_buf.drop (l1 ++ 10 :: (l2 ++ 10 :: more)).length) h1
    (by simp [buf_write, hempty]) (by simp [hempty]; omega)
  generalize hx1 : parse_line
    { x with read_buf := buf_write x.read_buf x.nread (l1 ++ 10 :: (l2 ++ 10 :: more)),
             nread := x.nread + (l1 ++ 10 :: (l2 ++ 10 :: more)).length } = x1 at *
  simp only at hnw1 hp1
  -- pass 2: the first reply
  have hc1 := classify_reply_state (command_word l1)
  have hst1 : x1.state = state_t.S0 ∨ x1.state = state_t.S2 ∨ x1.state = state_t.S3 ∨
      x1.state = state_t.S4 ∨ x1.state = state_t.S5 := by
    rcases hc1 with h | h | h | h <;> simp [hs1, h]
  have hnext1 : next_of (classify (command_word l1)) = state_t.S1 := by
    rcases hc1 with h | h | h | h
    · exact absurd h hnotquit
    · rw [h]; rfl
    · rw [h]; rfl
    · rw [h]; rfl
  obtain ⟨x2, e2, w2, hb2, hs2, hn2, hnw2, hp2, hbuf2, hsock2, hr2, hw2, hl2⟩ :=
    loop_body_reply_full sock flags x1 e1 w1
      (write_result.ok (reply_of (classify (command_word l2))).length :: ws) hst1 hwrite
      (hp1.trans hpend) (by rw [hw1, hs1]; exact hwrites)
  rw [hs1, hnext1] at hs2
  rw [hs1] at hl2
  -- pass 3: the read that would block, and the second line
  obtain ⟨w3, hb3, hr3, hw3, hl3⟩ := loop_body_eagain_log sock flags x2 e2 w2 hread hs2
    (by rw [hn2, hn1]; simp) (by rw [hr2, hr1]; exact hnext)
  obtain ⟨hs3, hn3, hnw3, hp3, htake3, junk3, hbuf3⟩ := parse_line_shift x2 l2 more junk1 h2
    (by rw [hbuf2, hbuf1]; simp) (by rw [hn2, hn1]; simp; omega)
  generalize hx3 : parse_line x2 = x3 at *
  -- pass 4: the second reply
  have hc2 := classify_reply_state (command_word l2)
  have hst3 : x3.state = state_t.S0 ∨ x3.state = state_t.S2 ∨ x3.state = state_t.S3 ∨
      x3.state = state_t.S4 ∨ x3.state = state_t.S5 := by
    rcases hc2 with h | h | h | h <;> simp [hs3, h]
  obtain ⟨x4, e4, w4, hb4, hs4, hn4, -, -, hbuf4, hsock4, hr4, hw4, hl4⟩ :=
    loop_body_reply_full sock flags x3 e2 w3 ws hst3 hwrite (hp3.trans hp2)
      (by rw [hw3, hw2, hs3])
  rw [hs3] at hs4 hl4
  refine ⟨?_, ?_, x4, e4, w4, ?_, ?_, hs4, ?_, ?_, hw4⟩
  · rw [hb1]; exact hs1
  · rw [hb1]; exact htake1
  · rw [show fuel + 4 = (fuel + 3) + 1 from rfl, loop_next sock flags _ _ _ _ _ _ _ hb1,
      show fuel + 3 = (fuel + 2) + 1 from rfl, loop_next sock flags _ _ _ _ _ _ _ hb2,
      show fuel + 2 = (fuel + 1) + 1 from rfl, loop_next sock flags _ _ _ _ _ _ _ hb3,
      loop_next sock flags _ _ _ _ _ _ _ hb4]
  · rw [hl4, hl3, hl2, hl1, hnw3, hnw2, hnw1, hsent, hsock2, hsock1, hn2, hn1, hempty]
    simp [Nat.add_comm, Nat.add_left_comm]
  · rw [hbuf4, hn4]; exact htake3
  · rw [hr4, hr3, hr2, hr1]

/-- C16 for two `NOOP` lines in one read: after the first pass the connection is
in S3 with the second line at the front of the buffer. -/
theorem C16_pipelined_lines_witness :
    (loop_body 5 3 (conn_S1 []) entry_5 world_two_lines).2.1.state = state_t.S3 ∧
    (loop_body 5 3 (conn_S1 []) entry_5 world_two_lines).2.1.read_buf.take
      (loop_body 5 3 (conn_S1 []) entry_5 world_two_lines).2.1.nread = bytes "NOOP\r\n" :=
  have h := C16_pipelined_lines 0 5 3 (conn_S1 []) entry_5 world_two_lines (bytes "NOOP\r")
    (bytes "NOOP\r") [] [] [] (by decide) (by decide) (by decide) (by decide) (by decide)
    (by decide) (by decide) (by decide) (by decide) (by decide) (by decide) (by decide)
  ⟨h.1.trans (by decide), h.2.1.trans (by decide)⟩

/-- C16 as stated fails for two `NOOP` lines delivered by one read: the single
invocation writes two replies (30 bytes, not the 15 of one reply) and returns
with an empty read buffer, so nothing is left for a later invocation. -/
theorem C16_counterexample :
    (process_event 10 (registry_one (conn_S1 [])) world_two_lines 5 3).map
      (fun out => (out.1, out.2.2.log, (out.2.1.data 0).nread)) =
    some (0, [os_event.read 5 0 512 (read_result.ok (bytes "NOOP\r\nNOOP\r\n")),
      os_event.write 5 str_noop 0 15 (write_result.ok 15),
      os_event.read 5 6 506 read_result.eagain,
      os_event.write 5 str_noop 0 15 (write_result.ok 15),
      os_event.read 5 0 512 read_result.eagain], 0) ∧
    (process_event 10 (registry_one (conn_S1 [])) world_two_lines 5 3).map
      (fun out => written_bytes 5 out.2.2.log) = some (str_noop ++ str_noop) ∧
    (process_event 10 (registry_one (conn_S1 [])) world_two_lines 5 3).map
      (fun out => written_bytes 5 out.2.2.log) ≠ some str_noop := by
  decide

theorem str_greeting_length : str_greeting.length = 35 := by decide

theorem writes_fit_tail (m : Nat) (ws : List write_result)
    (h : writes_fit m ws = true) (hh : ws.headD write_result.eagain = write_result.eagain) :
    writes_fit m ws.tail = true := by
  cases ws with
  | nil => rfl
  | cons o ws =>
    simp only [List.headD_cons] at hh
    subst hh
    simpa [writes_fit] using h

/-- One write of the greeting phase in S0. -/
theorem do_write_greeting (x : data_t) (e : entry_t) (w : world_t) (a : Nat) (sock : Int)
    (hsock : e.sock = sock) (ha : a < 35) (hstate : x.state = state_t.S0) (hn : x.nread = 0)
    (hx : (a = 0 ∧ x.write_buf = none ∧ x.nwritten = 0) ∨
      (x.write_buf = some str_greeting ∧ x.nwritten = a ∧ x.towrite = 35 - a))
    (hfit : writes_fit (35 - a) w.writes = true) :
    ∃ v x' e' w' a', do_write x e str_greeting str_greeting.length state_t.S1 w = (v, x', e', w') ∧
      a ≤ a' ∧ a' ≤ 35 ∧ greeting_at x' a' ∧ e'.sock = sock ∧
      (v ≠ 0 → a' = a) ∧ (v = 0 → a < a') ∧
      written_bytes sock w'.log = written_bytes sock w.log ++ (str_greeting.drop a).take (a' - a) ∧
      writes_fit (35 - a') w'.writes = true ∧ w'.reads = w.reads := by
  have hinst : (if x.write_buf.isNone then
      { x with write_buf := some str_greeting, towrite := str_greeting.length } else x)
      = { x with write_buf := some str_greeting, towrite := 35 - a } := by
    rcases hx with ⟨h0, hp, -⟩ | ⟨hp, -, ht⟩
    · subst h0; simp [hp, str_greeting_length]
    · simp only [hp, Option.isNone_some, Bool.false_eq_true, if_false]
      cases x
      simp_all
  have hnw : x.nwritten = a := by
    rcases hx with ⟨h0, -, hnw⟩ | ⟨-, hnw, -⟩
    · rw [hnw, h0]
    · exact hnw
  unfold do_write
  simp only [time, safe_write, hinst, Option.getD_some]
  cases hres : w.writes.headD write_result.eagain with
  | eagain =>
    refine ⟨_, _, _, _, a, rfl, le_refl _, by omega, ?_, hsock, fun _ => rfl,
      fun h => absurd h (by decide), ?_, ?_, rfl⟩
    · exact ⟨hn, Or.inl ⟨ha, hstate, rfl, hnw, rfl⟩⟩
    · simp [written_bytes_append, written_bytes]
    · exact writes_fit_tail _ _ hfit hres
  | fail =>
    cases hws : w.writes with
    | nil => rw [hws] at hres; simp at hres
    | cons o ws =>
      rw [hws] at hres hfit
      simp only [List.headD_cons] at hres
      subst hres
      simp [writes_fit] at hfit
  | ok k =>
    cases hws : w.writes with
    | nil => rw [hws] at hres; simp at hres
    | cons o ws =>
      rw [hws] at hres hfit
      simp only [List.headD_cons] at hres
      subst hres
      simp only [writes_fit, Bool.and_eq_true, decide_eq_true_eq] at hfit
      obtain ⟨⟨hk0, hk⟩, hrest⟩ := hfit
      by_cases hfull : k = 35 - a
      · subst hfull
        simp only [if_true]
        refine ⟨_, _, _, _, 35, rfl, by omega, le_refl _, ?_, ?_, ?_, ?_, ?_, ?_, ?_⟩
        · exact ⟨hn, Or.inr ⟨rfl, rfl, rfl⟩⟩
        · exact hsock
        · intro h; exact absurd rfl h
        · intro _; exact ha
        · simp [written_bytes_append, written_bytes, hsock, hnw]
        · simpa using hrest
        · rfl
      · simp only [hfull, if_false, gt_iff_lt, hk0, if_true]
        refine ⟨_, _, _, _, a + k, rfl, by omega, by omega, ?_, ?_, ?_, ?_, ?_, ?_, ?_⟩
        · exact ⟨hn, Or.inl ⟨by omega, hstate, rfl, by simp [hnw], by simp; omega⟩⟩
        · exact hsock
        · intro h; exact absurd rfl h
        · intro _; omega
        · simp [written_bytes_append, written_bytes, hsock, hnw]
        · rw [show 35 - (a + k) = 35 - a - k by omega]; exact hrest
        · rfl


theorem take_take_drop (g : List Nat) (a a' a'' : Nat) (h1 : a ≤ a') (h2 : a' ≤ a'') :
    (g.drop a).take (a' - a) ++ (g.drop a').take (a'' - a') = (g.drop a).take (a'' - a) := by
  rw [show a'' - a = (a' - a) + (a'' - a') by omega, List.take_add, List.drop_drop,
    show a + (a' - a) = a' by omega]

/-- An invocation on a connection whose greeting is out: no write is made and the
call returns keep-open. -/
theorem greeted_invocation (sock : Int) (flags fuel : Nat) (x : data_t) (e : entry_t)
    (w : world_t) (hstate : x.state = state_t.S1) (hn : x.nread = 0) (hr : w.reads = []) :
    ∃ e' w', process_event_loop sock flags (fuel + 1) x e w = some (0, x, e', w') ∧
      written_bytes sock w'.log = written_bytes sock w.log ∧ w'.writes = w.writes ∧
      w'.reads = [] := by
  by_cases hread : flags &&& BOUNCER_CAN_READ ≠ 0
  · have hb := loop_body_idle sock flags x e w hread hstate hn (by rw [hr]; rfl)
    refine ⟨e, _, loop_done sock flags fuel _ _ _ _ _ _ hb, ?_, rfl, by simp [hr]⟩
    simp [written_bytes_append, written_bytes]
  · have hread0 : flags &&& BOUNCER_CAN_READ = 0 := by simpa using hread
    have hb := loop_body_no_read sock flags x e w hread0 hstate
    exact ⟨e, _, loop_done sock flags fuel _ _ _ _ _ _ hb, rfl, rfl, hr⟩

/-- An invocation with write permitted during the greeting phase: it returns
keep-open, the bytes accepted in it continue the greeting where the earlier ones
stopped, and the greeting stays pending or the connection is in S1. -/
theorem greeting_invocation (sock : Int) (flags : Nat)
    (hwrite : flags &&& BOUNCER_CAN_WRITE ≠ 0) :
    ∀ (m fuel : Nat) (x : data_t) (e : entry_t) (w : world_t) (a : Nat),
      35 - a ≤ m → a < 35 → x.state = state_t.S0 → x.nread = 0 →
      ((a = 0 ∧ x.write_buf = none ∧ x.nwritten = 0) ∨
        (x.write_buf = some str_greeting ∧ x.nwritten = a ∧ x.towrite = 35 - a)) →
      e.sock = sock → writes_fit (35 - a) w.writes = true → w.reads = [] →
      ∃ x' e' w' a', process_event_loop sock flags (fuel + m + 2) x e w = some (0, x', e', w') ∧
        a ≤ a' ∧ a' ≤ 35 ∧ greeting_at x' a' ∧
        written_bytes sock w'.log
          = written_bytes sock w.log ++ (str_greeting.drop a).take (a' - a) ∧
        writes_fit (35 - a') w'.writes = true ∧ w'.reads = [] := by
  intro m
  induction m with
  | zero => intro fuel x e w a hm ha; omega
  | succ m ih =>
    intro fuel x e w a hm ha hstate hn hx hsock hfit hr
    obtain ⟨v, x1, e1, w1, a1, hdw, h1, h2, hg1, hsock1, hv1, hv0, hbytes1, hfit1, hr1⟩ :=
      do_write_greeting x e (time w).2 a sock hsock ha hstate hn hx (by simpa [time] using hfit)
    have hbody : loop_body sock flags x e w = (pass_t.next (decide (v ≠ 0)), x1, e1, w1) := by
      have hw0 : ¬ flags &&& BOUNCER_CAN_WRITE = 0 := hwrite
      simp only [loop_body, hstate, case_send, hw0, if_false, hdw]
    have hlog0 : written_bytes sock (time w).2.log = written_bytes sock w.log := rfl
    have hreads0 : (time w).2.reads = w.reads := rfl
    rw [hlog0] at hbytes1
    rw [hreads0, hr] at hr1
    by_cases hv : v = 0
    · have ha1 := hv0 hv
      have hbody' : loop_body sock flags x e w = (pass_t.next false, x1, e1, w1) := by
        rw [hbody]; simp [hv]
      rw [show fuel + (m + 1) + 2 = (fuel + m + 2) + 1 by omega,
        loop_next sock flags _ _ _ _ _ _ _ hbody']
      obtain ⟨hn1, hcase⟩ := hg1
      rcases hcase with ⟨hlt, hs1, hp1, hnw1, htw1⟩ | ⟨h35, hs1, hp1⟩
      · obtain ⟨x2, e2, w2, a2, hrun, h3, h4, hg2, hbytes2, hfit2, hr2⟩ :=
          ih fuel x1 e1 w1 a1 (by omega) hlt hs1 hn1 (Or.inr ⟨hp1, hnw1, htw1⟩) hsock1 hfit1 hr1
        refine ⟨x2, e2, w2, a2, hrun, by omega, h4, hg2, ?_, hfit2, hr2⟩
        rw [hbytes2, hbytes1, List.append_assoc, take_take_drop _ a a1 a2 h1 h3]
      · obtain ⟨e2, w2, hrun, hbytes2, hw2, hr2⟩ :=
          greeted_invocation sock flags (fuel + m + 1) x1 e1 w1 hs1 hn1 hr1
        refine ⟨x1, e2, w2, a1, hrun, h1, h2, ⟨hn1, Or.inr ⟨h35, hs1, hp1⟩⟩, ?_, ?_, hr2⟩
        · rw [hbytes2, hbytes1]
        · rw [hw2]; exact hfit1
    · have hbody' : loop_body sock flags x e w = (pass_t.next true, x1, e1, w1) := by
        rw [hbody]; simp [hv]
      exact ⟨x1, e1, w1, a1, loop_done sock flags _ _ _ _ _ _ _ hbody', h1, h2, hg1, hbytes1,
        hfit1, hr1⟩


/-- One `process_event` call with write permitted on a connection in its greeting
phase. -/
theorem phase_invocation (fuel : Nat) (r : registry_t) (w : world_t) (sock : Int)
    (flags idx a : Nat) (hfind : find_socket r sock = some idx)
    (hwrite : flags &&& BOUNCER_CAN_WRITE ≠ 0)
    (hphase : greeting_phase (r.data (r.sockets idx).data) a)
    (hfit : writes_fit (35 - a) w.writes = true) (hr : w.reads = []) :
    ∃ r' w' a', process_event (fuel + 37) r w sock flags = some (0, r', w') ∧
      find_socket r' sock = some idx ∧ r'.sockets = r.sockets ∧ a ≤ a' ∧ a' ≤ 35 ∧
      greeting_at (r'.data (r'.sockets idx).data) a' ∧
      written_bytes sock w'.log
        = written_bytes sock w.log ++ (str_greeting.drop a).take (a' - a) ∧
      writes_fit (35 - a') w'.writes = true ∧ w'.reads = [] := by
  obtain ⟨-, hsock⟩ := find_socket_some r sock idx hfind
  have hloop : ∃ x' e' w' a',
      process_event_loop sock flags (fuel + 37) (r.data (r.sockets idx).data) (r.sockets idx) w
        = some (0, x', e', w') ∧ a ≤ a' ∧ a' ≤ 35 ∧ greeting_at x' a' ∧
      written_bytes sock w'.log
        = written_bytes sock w.log ++ (str_greeting.drop a).take (a' - a) ∧
      writes_fit (35 - a') w'.writes = true ∧ w'.reads = [] := by
    rcases hphase with ⟨h0, hn, hs, hp, hnw⟩ | ⟨hn, ⟨hlt, hs, hp, hnw, htw⟩ | ⟨h35, hs, hp⟩⟩
    · exact greeting_invocation sock flags hwrite 35 fuel _ _ w a (by omega) (by omega) hs hn
        (Or.inl ⟨h0, hp, hnw⟩) hsock hfit hr
    · exact greeting_invocation sock flags hwrite 35 fuel _ _ w a (by omega) hlt hs hn
        (Or.inr ⟨hp, hnw, htw⟩) hsock hfit hr
    · obtain ⟨e', w', hrun, hbytes, hw', hr'⟩ :=
        greeted_invocation sock flags (fuel + 36) _ (r.sockets idx) w hs hn hr
      refine ⟨_, e', w', 35, hrun, by omega, le_refl _, ⟨hn, Or.inr ⟨rfl, hs, hp⟩⟩, ?_, ?_, hr'⟩
      · rw [hbytes]; subst h35; simp
      · rw [hw']; subst h35; exact hfit
  obtain ⟨x', e', w', a', hrun, h1, h2, hg, hbytes, hfit', hr'⟩ := hloop
  obtain ⟨r', hp, hfind', hsk, hd⟩ :=
    process_event_step (fuel + 37) r w sock flags idx 0 x' e' w' hfind hrun
  exact ⟨r', w', a', hp, hfind', hsk, h1, h2, by rw [hd]; exact hg, hbytes, hfit', hr'⟩

/-- Any number of `process_event` calls with write permitted on a connection in
its greeting phase. -/
theorem greeting_invocations (fuel : Nat) (sock : Int) (idx : Nat) :
    ∀ (events : List Nat) (r : registry_t) (w : world_t) (a : Nat),
      find_socket r sock = some idx → (∀ f ∈ events, f &&& BOUNCER_CAN_WRITE ≠ 0) →
      greeting_phase (r.data (r.sockets idx).data) a →
      writes_fit (35 - a) w.writes = true → w.reads = [] →
      ∃ r' w' a', invocations (fuel + 37) sock events r w = some (r', w') ∧
        a ≤ a' ∧ a' ≤ 35 ∧ r'.sockets = r.sockets ∧
        greeting_phase (r'.data (r'.sockets idx).data) a' ∧
        ((events ≠ [] ∨ greeting_at (r.data (r.sockets idx).data) a) →
          greeting_at (r'.data (r'.sockets idx).data) a') ∧
        written_bytes sock w'.log
          = written_bytes sock w.log ++ (str_greeting.drop a).take (a' - a) := by
  intro events
  induction events with
  | nil =>
    intro r w a _ _ hphase _ _
    exact ⟨r, w, a, rfl, le_refl _, by
      rcases hphase with ⟨h0, -⟩ | ⟨-, ⟨hlt, -⟩ | ⟨h35, -⟩⟩ <;> omega,
      rfl, hphase, fun h => h.elim (fun h' => absurd rfl h') id, by simp⟩
  | cons flags rest ih =>
    intro r w a hfind hev hphase hfit hr
    obtain ⟨r1, w1, a1, hp1, hfind1, hsk1, h1, h2, hg1, hbytes1, hfit1, hr1⟩ :=
      phase_invocation fuel r w sock flags idx a hfind (hev flags (by simp)) hphase hfit hr
    obtain ⟨r2, w2, a2, hp2, h3, h4, hsk2, hph2, hg2, hbytes2⟩ :=
      ih r1 w1 a1 hfind1 (fun f hf => hev f (by simp [hf])) (Or.inr hg1) hfit1 hr1
    refine ⟨r2, w2, a2, ?_, by omega, h4, hsk2.trans hsk1, hph2, ?_, ?_⟩
    · simp only [invocations, hp1]
      simpa using hp2
    · intro _
      exact hg2 (Or.inr hg1)
    · rw [hbytes2, hbytes1, List.append_assoc, take_take_drop _ a a1 a2 h1 h3]


/-- C15: a connection is fresh (S0, empty buffer, zero bytes sent, nothing
pending), the client is silent, and `process_event` is invoked any number of
times with write permitted while the transport answers each write with
would-block or with a count between 1 and the bytes that remain. All the
invocations return, the bytes accepted so far are the first `a` bytes of the
greeting, while `a < 35` the connection is in S0 (with, once a write was
attempted, the greeting pending from offset `a` with `35 - a` bytes to write),
and it is in S1 with no pending message exactly when `a = 35`. -/
theorem C15_greeting_in_pieces (fuel : Nat) (events : List Nat) (r : registry_t) (w : world_t) (sock : Int)
    (idx : Nat)
    (hfind : find_socket r sock = some idx)
    (hstate : (r.data (r.sockets idx).data).state = state_t.S0)
    (hempty : (r.data (r.sockets idx).data).nread = 0)
    (hsent : (r.data (r.sockets idx).data).nwritten = 0)
    (hpend : (r.data (r.sockets idx).data).write_buf = none)
    (hev : ∀ f ∈ events, f &&& BOUNCER_CAN_WRITE ≠ 0)
    (hfit : writes_fit 35 w.writes = true) (hreads : w.reads = []) :
    ∃ r' w' a, invocations (fuel + 37) sock events r w = some (r', w') ∧ a ≤ 35 ∧
      written_bytes sock w'.log = written_bytes sock w.log ++ str_greeting.take a ∧
      (a < 35 → (r'.data (r'.sockets idx).data).state = state_t.S0 ∧
        (events ≠ [] → (r'.data (r'.sockets idx).data).write_buf = some str_greeting ∧
          (r'.data (r'.sockets idx).data).nwritten = a ∧
          (r'.data (r'.sockets idx).data).towrite = 35 - a)) ∧
      (((r'.data (r'.sockets idx).data).state = state_t.S1 ∧
          (r'.data (r'.sockets idx).data).write_buf = none) ↔ a = 35) := by
  obtain ⟨r', w', a, hrun, -, h35, -, hphase, hat, hbytes⟩ :=
    greeting_invocations fuel sock idx events r w 0 hfind hev
      (Or.inl ⟨rfl, hempty, hstate, hpend, hsent⟩) hfit hreads
  refine ⟨r', w', a, hrun, h35, by simpa using hbytes, ?_, ?_⟩
  · intro hlt
    constructor
    · rcases hphase with ⟨-, -, hs, -⟩ | ⟨-, ⟨-, hs, -⟩ | ⟨h, -⟩⟩
      · exact hs
      · exact hs
      · omega
    · intro hne
      rcases hat (Or.inl hne) with ⟨-, ⟨-, -, hp, hnw, htw⟩ | ⟨h, -⟩⟩
      · exact ⟨hp, hnw, htw⟩
      · omega
  · constructor
    · rintro ⟨hs1, -⟩
      rcases hphase with ⟨-, -, hs, -⟩ | ⟨-, ⟨-, hs, -⟩ | ⟨h, -⟩⟩
      · rw [hs] at hs1; exact absurd hs1 (by decide)
      · rw [hs] at hs1; exact absurd hs1 (by decide)
      · exact h
    · intro ha
      rcases hphase with ⟨h0, -⟩ | ⟨-, ⟨hlt, -⟩ | ⟨-, hs, hp⟩⟩
      · omega
      · omega
      · exact ⟨hs, hp⟩

/-- C15 for three invocations on descriptor 5 while the transport takes 10
bytes, blocks, then takes 20 and 5 bytes. -/
theorem C15_greeting_in_pieces_witness :
    ∃ r' w' a, invocations (0 + 37) 5 [2, 2, 3] (admitted world_greeting_pieces).1
        (admitted world_greeting_pieces).2 = some (r', w') ∧ a ≤ 35 ∧
      written_bytes 5 w'.log
        = written_bytes 5 (admitted world_greeting_pieces).2.log ++ str_greeting.take a ∧
      (a < 35 → (r'.data (r'.sockets 0).data).state = state_t.S0 ∧
        (([2, 2, 3] : List Nat) ≠ [] →
          (r'.data (r'.sockets 0).data).write_buf = some str_greeting ∧
          (r'.data (r'.sockets 0).data).nwritten = a ∧
          (r'.data (r'.sockets 0).data).towrite = 35 - a)) ∧
      (((r'.data (r'.sockets 0).data).state = state_t.S1 ∧
          (r'.data (r'.sockets 0).data).write_buf = none) ↔ a = 35) :=
  C15_greeting_in_pieces 0 [2, 2, 3] (admitted world_greeting_pieces).1 (admitted world_greeting_pieces).2 5 0
    (by decide) (by decide) (by decide) (by decide) (by decide) (by decide) (by decide)
    (by decide)

theorem memchr_lt (c : Nat) : ∀ (l : List Nat) (n pos : Nat), memchr l c n = some pos → pos < n := by
  intro l
  induction l with
  | nil => intro n pos h; cases n <;> simp [memchr] at h
  | cons b l ih =>
    intro n pos h
    cases n with
    | zero => simp [memchr] at h
    | succ n =>
      simp only [memchr] at h
      split_ifs at h with hb
      · simp only [Option.some.injEq] at h; omega
      · cases hm : memchr l c n with
        | none => rw [hm] at h; simp at h
        | some p =>
          rw [hm] at h
          simp only [Option.map_some', Option.some.injEq] at h
          have := ih n p hm
          omega

theorem token_loop_length : ∀ (k p : Nat) (buf : List Nat),
    (token_loop k p buf).length = buf.length := by
  intro k
  induction k with
  | zero => intro p buf; rfl
  | succ k ih =>
    intro p buf
    simp only [token_loop]
    split_ifs
    · simp
    · rw [ih]; simp

theorem memcpy_front_length (buf : List Nat) (src n : Nat) :
    (memcpy_front buf src n).length = buf.length := by
  simp only [memcpy_front, buf_write, List.take_zero, List.nil_append, List.length_append,
    List.length_take, List.length_drop, Nat.zero_add]
  omega

theorem buf_write_length (buf : List Nat) (off : Nat) (d : List Nat)
    (h : off + d.length ≤ buf.length) : (buf_write buf off d).length = buf.length := by
  simp only [buf_write, List.length_append, List.length_take, List.length_drop]
  omega

/-- The line parser keeps the buffer a 516-byte array and leaves at most 511
bytes buffered. -/
theorem parse_line_bounds (x : data_t) (hn : x.nread ≤ 512) (hlen : x.read_buf.length = 516) :
    (parse_line x).nread ≤ 511 ∧ (parse_line x).read_buf.length = 516 := by
  unfold parse_line
  cases hm : memchr x.read_buf 10 x.nread with
  | some pos =>
    have := memchr_lt 10 _ _ _ hm
    simp only [memcpy_front_length, token_loop_length, List.length_set, hlen, and_true]
    omega
  | none =>
    simp only
    split_ifs with h512
    · exact ⟨by simp, hlen⟩
    · exact ⟨by omega, hlen⟩

theorem do_write_buffer (x : data_t) (e : entry_t) (buf : List Nat) (len : Nat)
    (state : state_t) (w : world_t) :
    (do_write x e buf len state w).2.1.nread = x.nread ∧
    (do_write x e buf len state w).2.1.read_buf = x.read_buf := by
  unfold do_write
  simp only [time, safe_write]
  cases w.writes.headD write_result.eagain with
  | ok k =>
    simp only
    split_ifs <;> by_cases hp : x.write_buf.isNone <;> simp [hp]
  | eagain => by_cases hp : x.write_buf.isNone <;> simp [hp]
  | fail => by_cases hp : x.write_buf.isNone <;> simp [hp]

theorem case_send_buffer (flags : Nat) (buf : List Nat) (state : state_t) (x : data_t)
    (e : entry_t) (w : world_t) :
    (case_send flags buf state x e w).2.1.nread = x.nread ∧
    (case_send flags buf state x e w).2.1.read_buf = x.read_buf := by
  unfold case_send
  split_ifs
  · exact ⟨rfl, rfl⟩
  · exact do_write_buffer x e buf buf.length state w

/-- A pass of the loop keeps the buffer a 516-byte array with at most 511 bytes
buffered, when the read keeps its contract. -/
theorem loop_body_bounds (sock : Int) (flags : Nat) (x : data_t) (e : entry_t) (w : world_t)
    (hn : x.nread ≤ 511) (hlen : x.read_buf.length = 516) (hfit : read_fits x w) :
    (loop_body sock flags x e w).2.1.nread ≤ 511 ∧
    (loop_body sock flags x e w).2.1.read_buf.length = 516 := by
  have hsend : ∀ (buf : List Nat) (state : state_t),
      (case_send flags buf state x e (time w).2).2.1.nread ≤ 511 ∧
      (case_send flags buf state x e (time w).2).2.1.read_buf.length = 516 := by
    intro buf state
    obtain ⟨h1, h2⟩ := case_send_buffer flags buf state x e (time w).2
    rw [h1, h2]; exact ⟨hn, hlen⟩
  cases hs : x.state with
  | S0 => simpa only [loop_body, hs] using hsend str_greeting state_t.S1
  | S2 => simpa only [loop_body, hs] using hsend str_quit state_t.FIN
  | S3 => simpa only [loop_body, hs] using hsend str_noop state_t.S1
  | S4 => simpa only [loop_body, hs] using hsend ( err_syntax) state_t.S1
  | S5 => simpa only [loop_body, hs] using hsend str_bad_seq state_t.S1
  | FIN => simp only [loop_body, hs]; exact ⟨hn, hlen⟩
  | ERR =>
    simp only [loop_body, hs]
    split_ifs
    · obtain ⟨h1, h2⟩ := do_write_buffer x e err_unavail err_unavail.length state_t.ERR (time w).2
      simp only [h1, h2]; exact ⟨hn, hlen⟩
    · exact ⟨hn, hlen⟩
  | S1 =>
    simp only [loop_body, hs, case_S1, time, safe_read]
    split_ifs with hr
    · cases hres : w.reads.headD read_result.eagain with
      | ok d =>
        have hd := hfit d hres
        simp only
        split_ifs
        · apply parse_line_bounds
          · simp only; omega
          · simp only; rw [buf_write_length _ _ _ (by omega)]; exact hlen
        · exact parse_line_bounds _ (by simp only; omega) hlen
      | fail => exact parse_line_bounds _ (by simp only; omega) hlen
      | eagain => exact parse_line_bounds _ (by omega) hlen
    · exact ⟨hn, hlen⟩

theorem reachable_conn_bounds (x : data_t) (h : reachable_conn x) :
    x.nread ≤ 511 ∧ x.read_buf.length = 516 := by
  induction h with
  | fresh x _ hn _ _ _ hlen => exact ⟨by omega, hlen⟩
  | pass sock flags x e w _ hfit ih => exact loop_body_bounds sock flags x e w ih.1 ih.2 hfit


/-- The read that a pass in S1 issues: at offset `nread`, for `512 - nread`
bytes. -/
theorem loop_body_read_request (sock : Int) (flags : Nat) (x : data_t) (e : entry_t)
    (w : world_t) (hstate : x.state = state_t.S1) (hread : flags &&& BOUNCER_CAN_READ ≠ 0) :
    (loop_body sock flags x e w).2.2.2.log = w.log ++
      [os_event.read sock x.nread (512 - x.nread) (w.reads.headD read_result.eagain)] := by
  simp only [loop_body, hstate, case_S1, time, safe_read, hread, ne_eq, not_false_eq_true,
    if_true]
  cases w.reads.headD read_result.eagain with
  | ok d => simp only; split_ifs <;> rfl
  | eagain => rfl
  | fail => rfl

/-- C20: in every connection state reachable from admission by passes of the
`process_event` loop (reads delivering at most what was requested), `nread` is
at most 511 and `read_buf` is still the 516-byte array; so the read a pass in S1
issues is at offset `nread` for `512 - nread` bytes, a size between 1 and 512
that ends at byte 512 of the 516; after a read that stores `d`, `nread` is at
most 512, the buffer is still 516 bytes long, an LF found by `memchr` lies below
`nread`, the shift copies from below byte 512, and after the parser `nread` is
at most 511 again; and when a line is consumed `nread` drops by exactly the
length of the line plus one for its LF. -/
theorem C20_read_buffer_bounds (x : data_t) (h : reachable_conn x) :
    x.nread ≤ 511 ∧ x.read_buf.length = 516 ∧
    (1 ≤ 512 - x.nread ∧ 512 - x.nread ≤ 512 ∧ x.nread + (512 - x.nread) ≤ 516) ∧
    (∀ sock flags e w, x.state = state_t.S1 → flags &&& BOUNCER_CAN_READ ≠ 0 →
      (loop_body sock flags x e w).2.2.2.log = w.log ++
        [os_event.read sock x.nread (512 - x.nread) (w.reads.headD read_result.eagain)]) ∧
    (∀ d, d.length ≤ 512 - x.nread →
      (after_read x d).nread ≤ 512 ∧ (after_read x d).read_buf.length = 516 ∧
      (∀ pos, memchr (after_read x d).read_buf 10 (after_read x d).nread = some pos →
        pos < (after_read x d).nread ∧
        (pos + 1) + ((after_read x d).nread - (pos + 1)) ≤ 512) ∧
      (parse_line (after_read x d)).nread ≤ 511 ∧
      (parse_line (after_read x d)).read_buf.length = 516 ∧
      (∀ line rest, 10 ∉ line →
        (after_read x d).read_buf.take (after_read x d).nread = line ++ 10 :: rest →
        (parse_line (after_read x d)).nread + (line.length + 1) = (after_read x d).nread)) := by
  obtain ⟨hn, hlen⟩ := reachable_conn_bounds x h
  refine ⟨hn, hlen, by omega, ?_, ?_⟩
  · intro sock flags e w hstate hread
    exact loop_body_read_request sock flags x e w hstate hread
  · intro d hd
    have hn' : (after_read x d).nread ≤ 512 := by simp only [after_read]; omega
    have hlen' : (after_read x d).read_buf.length = 516 := by
      simp only [after_read]; rw [buf_write_length _ _ _ (by omega)]; exact hlen
    obtain ⟨hp1, hp2⟩ := parse_line_bounds (after_read x d) hn' hlen'
    refine ⟨hn', hlen', ?_, hp1, hp2, ?_⟩
    · intro pos hm
      have := memchr_lt 10 _ _ _ hm
      omega
    · intro line rest h10 htake
      obtain ⟨⟨tail, hb⟩, hlt⟩ := line_of_take _ _ _ _ htake
      rw [parse_line_of_line _ line tail hb hlt h10]
      simp only
      omega

/-- C20 for the state a fresh connection is in after the pass that writes its
greeting. -/
theorem C20_read_buffer_bounds_witness :
    (loop_body 5 2 (registry_init.data 0) entry_5 world_greeting_at_200).2.1.nread ≤ 511 ∧
    (loop_body 5 2 (registry_init.data 0) entry_5 world_greeting_at_200).2.1.read_buf.length
      = 516 :=
  have h := C20_read_buffer_bounds (loop_body 5 2 (registry_init.data 0) entry_5 world_greeting_at_200).2.1
    (reachable_conn.pass 5 2 (registry_init.data 0) entry_5 world_greeting_at_200
      (reachable_conn.fresh (registry_init.data 0) rfl rfl rfl rfl rfl
        (List.length_replicate 516 0))
      (fun d hd => by cases hd))
  ⟨h.1, h.2.1⟩

end Bouncer
